import Mathlib

/-!
Shallow embedding of the observer-routing core of the elrond proxy
(`process/transactionProcessor.go` and `process/accountProcessor.go`).

The processors consume four collaborator interfaces: a pubkey converter
(`Decode`), a shard coordinator (`ComputeShardId`), an observer inventory
(`GetObservers` / `GetAllObservers`) and an HTTP forwarder
(`CallGetRestEndPoint` / `CallPostRestEndPoint`).  Those collaborators are
modelled as an explicit environment record `Env` of pure functions; one Go
call `CallXxxRestEndPoint(address, path, body, out)` becomes one lookup of
the environment at the observer address (and body), returning the triple
(status code, error, decoded response).  Traversal loops additionally
record, as ghost instrumentation, the list of observers actually called,
so that claims about which observers are visited can be stated.
-/

namespace ElrondProxy

/-- An observer record `{Address, ShardId}` (`data.Observer`). -/
structure Observer where
  address : String
  shardId : Nat
deriving DecidableEq

/-- The fields of an observer-reported transaction that the status logic
reads (`transaction.ApiTransactionResult`: `Sender`, `Receiver`, `Status`). -/
structure ApiTx where
  sender : String
  receiver : String
  status : String
deriving DecidableEq

/-- `data.GetTransactionResponse`. -/
structure GetTransactionResponse where
  transaction : ApiTx
deriving DecidableEq

/-- A client-submitted transaction (`data.Transaction`).  `txData` models the
Go field `Data`; `index` models the transient routing field `Index`. -/
structure Transaction where
  nonce : Nat
  value : String
  receiver : String
  sender : String
  gasPrice : Nat
  gasLimit : Nat
  txData : String
  signature : String
  index : Nat
deriving DecidableEq

/-- `data.ResponseTransaction` (the observer's reply to a single send). -/
structure ResponseTransaction where
  txHash : String
deriving DecidableEq

/-- `data.ResponseMultipleTransactions`.  The Go field `TxsHashes` is a
`map[int]string`; it is modelled as an association list of key/hash pairs. -/
structure ResponseMultipleTransactions where
  numOfTxs : Nat
  txsHashes : List (Nat × String)
deriving DecidableEq

/-- `data.ResponseTxCost`. -/
structure ResponseTxCost where
  txCost : Nat
deriving DecidableEq

/-- The account payload (`data.Account`), abstracted to the fields the
claims mention. -/
structure Account where
  balance : String
deriving DecidableEq

/-- `data.ResponseAccount`. -/
structure ResponseAccount where
  accountData : Account
deriving DecidableEq

/-- Result of one forwarder call: HTTP status code, transport/decode error
(`none` models a nil Go error) and the decoded response body. -/
structure CallResult (α : Type) where
  code : Nat
  err : Option String
  resp : α
deriving DecidableEq

/-- The Go `error` values the embedded processors produce.  `none` at use
sites models a nil error. -/
inductive ProxyError where
  | invalidTxFields (message reason : String)
  | decodeError (msg : String)
  | computeShardIdError (msg : String)
  | getObserversError (msg : String)
  | callError (msg : String)
  | sendingRequest
  | transactionNotFound
  | invalidSenderAddress
  | missingObserver
  | noValidTransactionToSend
deriving DecidableEq

/-- The collaborator environment: pubkey converter, shard coordinator,
observer inventory and HTTP forwarder, as pure functions. -/
structure Env where
  decode : String → Except String (List Nat)
  computeShardId : List Nat → Except String Nat
  getObservers : Nat → Except String (List Observer)
  getAllObservers : List Observer
  callGetTx : String → String → CallResult GetTransactionResponse
  callPostSendTx : String → Transaction → CallResult ResponseTransaction
  callPostSendMultiple : String → List Transaction → CallResult ResponseMultipleTransactions
  callPostCost : String → Transaction → CallResult ResponseTxCost
  callGetAccount : String → String → CallResult ResponseAccount

instance {ε α : Type} [DecidableEq ε] [DecidableEq α] : DecidableEq (Except ε α) := fun a b =>
  match a, b with
  | .error e, .error f =>
    if h : e = f then isTrue (h ▸ rfl)
    else isFalse (fun hc => h (by cases hc; rfl))
  | .ok x, .ok y =>
    if h : x = y then isTrue (h ▸ rfl)
    else isFalse (fun hc => h (by cases hc; rfl))
  | .error _, .ok _ => isFalse (fun hc => Except.noConfusion hc)
  | .ok _, .error _ => isFalse (fun hc => Except.noConfusion hc)

/-- `core.MetachainShardId` (`0xFFFFFFFF`). -/
def metachainShardId : Nat := 4294967295

/-- `process.TransactionPath`. -/
def TransactionPath : String := "/transaction/"

/-- `process.UnknownStatusTx`. -/
def UnknownStatusTx : String := "unknown"

/-- `process.AddressPath`. -/
def AddressPath : String := "/address/"

/-- Whether `encoding/hex.DecodeString` succeeds on `s`: every character is
a hex digit and the length is even (the exact error text is abstracted). -/
def hexDecodeOk (s : String) : Bool :=
  s.data.all (fun c => c.isDigit || ('a' ≤ c && c ≤ 'f') || ('A' ≤ c && c ≤ 'F'))
    && s.length % 2 == 0

/-- `TransactionProcessor.checkTransactionFields`: the sender and receiver
must decode and the signature must be hex; any failure yields
`ErrInvalidTxFields{Message, Reason}`. -/
def checkTransactionFields (env : Env) (tx : Transaction) : Option ProxyError :=
  match env.decode tx.sender with
  | .error e => some (.invalidTxFields "invalid sender address" e)
  | .ok _ =>
    match env.decode tx.receiver with
    | .error e => some (.invalidTxFields "invalid receiver address" e)
    | .ok _ =>
      if hexDecodeOk tx.signature then none
      else some (.invalidTxFields "invalid signature hex" "encoding/hex error")

/-- Result of `SendTransaction`: the `(int, string, error)` triple plus the
ghost list of observer addresses actually POSTed to. -/
structure SendTxResult where
  code : Nat
  txHash : String
  err : Option ProxyError
  visited : List String
deriving DecidableEq

/-- The observer loop of `TransactionProcessor.SendTransaction`: first
200-with-nil-error wins, 404/408 skips, any other outcome is fatal,
exhaustion yields `ErrSendingRequest`. -/
def sendTxLoop (env : Env) (tx : Transaction) : List Observer → SendTxResult
  | [] => ⟨500, "", some .sendingRequest, []⟩
  | o :: rest =>
    let r := env.callPostSendTx o.address tx
    if r.code == 200 && r.err == none then
      ⟨r.code, r.resp.txHash, none, [o.address]⟩
    else if r.code == 404 || r.code == 408 then
      let k := sendTxLoop env tx rest
      ⟨k.code, k.txHash, k.err, o.address :: k.visited⟩
    else
      ⟨r.code, "", r.err.map .callError, [o.address]⟩

/-- `TransactionProcessor.SendTransaction`: validate fields, decode the
sender, compute its shard, fetch that shard's observers, then forward. -/
def SendTransaction (env : Env) (tx : Transaction) : SendTxResult :=
  match checkTransactionFields env tx with
  | some e => ⟨400, "", some e, []⟩
  | none =>
    match env.decode tx.sender with
    | .error m => ⟨400, "", some (.decodeError m), []⟩
    | .ok senderBuff =>
      match env.computeShardId senderBuff with
      | .error m => ⟨500, "", some (.computeShardIdError m), []⟩
      | .ok shardID =>
        match env.getObservers shardID with
        | .error m => ⟨500, "", some (.getObserversError m), []⟩
        | .ok observers => sendTxLoop env tx observers

/-- `TransactionProcessor.getShardByAddress`: the literal decimal rendering
of the metachain id maps to the metachain shard without decoding; any other
string is decoded and fed to `ComputeShardId`. -/
def getShardByAddress (env : Env) (address : String) : Except String Nat :=
  if address ≠ Nat.repr metachainShardId then
    match env.decode address with
    | .error m => .error m
    | .ok buf => env.computeShardId buf
  else
    .ok metachainShardId

/-- The shard value the Go callers read after `sndShardID, _ :=
tp.getShardByAddress(...)`: the computed shard, or `0` on error (the Go
function returns `0, err` on its error paths). -/
def getShardByAddressVal (env : Env) (address : String) : Nat :=
  match getShardByAddress env address with
  | .ok s => s
  | .error _ => 0

/-- `TransactionProcessor.getTxFromObserver`: `some` response iff the GET
on `/transaction/{hash}` returned a nil error and code 200. -/
def getTxFromObserver (env : Env) (observer : Observer) (txHash : String) :
    Option GetTransactionResponse :=
  let r := env.callGetTx observer.address (TransactionPath ++ txHash)
  if r.err.isSome then none
  else if r.code ≠ 200 then none
  else some r.resp

/-- The destination-shard loop of
`TransactionProcessor.getTxStatusFromDestShard`: first observer answering
with a nil error and code 200 supplies the status. -/
def destShardLoop (env : Env) (txHash : String) : List Observer → Option String
  | [] => none
  | o :: rest =>
    let r := env.callGetTx o.address (TransactionPath ++ txHash)
    if r.err.isSome then destShardLoop env txHash rest
    else if r.code ≠ 200 then destShardLoop env txHash rest
    else some r.resp.transaction.status

/-- `TransactionProcessor.getTxStatusFromDestShard`: `none` models the
`("", false)` outcome (observers for the shard unavailable, or all skipped). -/
def getTxStatusFromDestShard (env : Env) (txHash : String) (dstShardID : Nat) :
    Option String :=
  match env.getObservers dstShardID with
  | .error _ => none
  | .ok obs => destShardLoop env txHash obs

/-- The all-observers loop of `TransactionProcessor.GetTransactionStatus`
(no sender hint): on the first hit, intra-shard or answered-from-destination
statuses are authoritative; otherwise the destination-shard override is
attempted, falling back to the fetched status. -/
def getTxStatusLoop (env : Env) (txHash : String) :
    List Observer → String × Option ProxyError
  | [] => (UnknownStatusTx, some .transactionNotFound)
  | o :: rest =>
    match getTxFromObserver env o txHash with
    | none => getTxStatusLoop env txHash rest
    | some resp =>
      let sndShardID := getShardByAddressVal env resp.transaction.sender
      let rcvShardID := getShardByAddressVal env resp.transaction.receiver
      let isIntraShard := sndShardID == rcvShardID
      let observerIsInDestShard := rcvShardID == o.shardId
      if isIntraShard || observerIsInDestShard then
        (resp.transaction.status, none)
      else
        match getTxStatusFromDestShard env txHash rcvShardID with
        | some dstTxStatus => (dstTxStatus, none)
        | none => (resp.transaction.status, none)

/-- The sender-shard loop of
`TransactionProcessor.getTxStatusWithSenderAddr`. -/
def getTxStatusWithSenderLoop (env : Env) (txHash : String) (sndShardID : Nat) :
    List Observer → String × Option ProxyError
  | [] => (UnknownStatusTx, some .transactionNotFound)
  | o :: rest =>
    match getTxFromObserver env o txHash with
    | none => getTxStatusWithSenderLoop env txHash sndShardID rest
    | some resp =>
      let rcvShardID := getShardByAddressVal env resp.transaction.receiver
      if rcvShardID == sndShardID then
        (resp.transaction.status, none)
      else
        match getTxStatusFromDestShard env txHash rcvShardID with
        | some dstTxStatus => (dstTxStatus, none)
        | none => (resp.transaction.status, none)

/-- `TransactionProcessor.getTxStatusWithSenderAddr`. -/
def getTxStatusWithSenderAddr (env : Env) (txHash sender : String) :
    String × Option ProxyError :=
  match getShardByAddress env sender with
  | .error _ => (UnknownStatusTx, some .invalidSenderAddress)
  | .ok sndShardID =>
    match env.getObservers sndShardID with
    | .error m => (UnknownStatusTx, some (.getObserversError m))
    | .ok observers => getTxStatusWithSenderLoop env txHash sndShardID observers

/-- `TransactionProcessor.GetTransactionStatus`. -/
def GetTransactionStatus (env : Env) (txHash sender : String) :
    String × Option ProxyError :=
  if sender ≠ "" then getTxStatusWithSenderAddr env txHash sender
  else getTxStatusLoop env txHash env.getAllObservers

/-- The loop of `TransactionProcessor.GetTransaction`.  The Go loop reuses
one `err` variable: every call (also a skipped one) overwrites it, and the
final `return nil, err` reports whatever the last call left there
(`lastErr` carries that variable; it starts as nil). -/
def getTxLoop (env : Env) (txHash : String) (lastErr : Option String) :
    List Observer → Option ApiTx × Option String
  | [] => (none, lastErr)
  | o :: rest =>
    let r := env.callGetTx o.address (TransactionPath ++ txHash)
    if r.code ≠ 200 then getTxLoop env txHash r.err rest
    else if r.err.isSome then getTxLoop env txHash r.err rest
    else (some r.resp.transaction, none)

/-- `TransactionProcessor.GetTransaction`: iterate all observers; the first
one answering 200 with a nil error supplies the transaction. -/
def GetTransaction (env : Env) (txHash : String) : Option ApiTx × Option String :=
  getTxLoop env txHash none env.getAllObservers

/-- The loop of `TransactionProcessor.GetTransactionByHashAndSenderAddress`:
skip on non-200 or error, exhaustion gives `404 ErrTransactionNotFound`. -/
def getTxByHashSenderLoop (env : Env) (txHash : String) :
    List Observer → Option ApiTx × Nat × Option ProxyError
  | [] => (none, 404, some .transactionNotFound)
  | o :: rest =>
    let r := env.callGetTx o.address (TransactionPath ++ txHash)
    if r.code ≠ 200 then getTxByHashSenderLoop env txHash rest
    else if r.err.isSome then getTxByHashSenderLoop env txHash rest
    else (some r.resp.transaction, 200, none)

/-- `TransactionProcessor.GetTransactionByHashAndSenderAddress`. -/
def GetTransactionByHashAndSenderAddress (env : Env) (txHash sndAddr : String) :
    Option ApiTx × Nat × Option ProxyError :=
  match getShardByAddress env sndAddr with
  | .error _ => (none, 400, some .invalidSenderAddress)
  | .ok shardID =>
    match env.getObservers shardID with
    | .error m => (none, 500, some (.getObserversError m))
    | .ok observers => getTxByHashSenderLoop env txHash observers

/-- Result of `TransactionCostRequest`: the `(string, error)` pair plus the
ghost list of observers actually POSTed to. -/
structure CostResult where
  res : String
  err : Option ProxyError
  visited : List Observer
deriving DecidableEq

/-- The loop of `TransactionProcessor.TransactionCostRequest`: metachain
observers are skipped before any POST; otherwise the three-outcome pattern
applies against `/transaction/cost`. -/
def txCostLoop (env : Env) (tx : Transaction) : List Observer → CostResult
  | [] => ⟨"", some .sendingRequest, []⟩
  | o :: rest =>
    if o.shardId == metachainShardId then txCostLoop env tx rest
    else
      let r := env.callPostCost o.address tx
      if r.code == 200 && r.err == none then
        ⟨Nat.repr r.resp.txCost, none, [o]⟩
      else if r.code == 404 || r.code == 408 then
        let k := txCostLoop env tx rest
        ⟨k.res, k.err, o :: k.visited⟩
      else
        ⟨"", r.err.map .callError, [o]⟩

/-- `TransactionProcessor.TransactionCostRequest`. -/
def TransactionCostRequest (env : Env) (tx : Transaction) : CostResult :=
  match checkTransactionFields env tx with
  | some e => ⟨"", some e, []⟩
  | none => txCostLoop env tx env.getAllObservers

/-- Append `tx` to the shard's group in the shard-to-group map (`Go`:
`txsMap[senderShardID] = append(txsMap[senderShardID], tx)`); the map is
modelled as an association list in first-insertion order. -/
def shardGroupsInsert (m : List (Nat × List Transaction)) (shard : Nat)
    (tx : Transaction) : List (Nat × List Transaction) :=
  match m with
  | [] => [(shard, [tx])]
  | (s, l) :: rest =>
    if s == shard then (s, l ++ [tx]) :: rest
    else (s, l) :: shardGroupsInsert rest shard tx

/-- The body of `TransactionProcessor.groupTxsByShard`'s `range` loop.
`idx` is the running range index.  The second component of the result is
the post-call value of the traversed slice: the Go code writes
`tx.Index = idx` through the caller's pointer, so a grouped transaction is
mutated in place; skipped ones are returned unchanged. -/
def groupTxsByShardAux (env : Env) :
    List Transaction → Nat → List (Nat × List Transaction) →
    List (Nat × List Transaction) × List Transaction
  | [], _, m => (m, [])
  | tx :: rest, idx, m =>
    match env.decode tx.sender with
    | .error _ =>
      let k := groupTxsByShardAux env rest (idx + 1) m
      (k.1, tx :: k.2)
    | .ok senderBytes =>
      match env.computeShardId senderBytes with
      | .error _ =>
        let k := groupTxsByShardAux env rest (idx + 1) m
        (k.1, tx :: k.2)
      | .ok senderShardID =>
        let tx2 := { tx with index := idx }
        let k := groupTxsByShardAux env rest (idx + 1) (shardGroupsInsert m senderShardID tx2)
        (k.1, tx2 :: k.2)

/-- `TransactionProcessor.groupTxsByShard`: group by sender shard, stamping
each grouped transaction's `Index` with its position in the traversed
slice.  Also returns the post-mutation slice. -/
def groupTxsByShard (env : Env) (txs : List Transaction) :
    List (Nat × List Transaction) × List Transaction :=
  groupTxsByShardAux env txs 0 []

/-- Go map assignment `m[k] = v` on the association-list model: replace the
binding if the key is present, append it otherwise. -/
def assocInsert (m : List (Nat × String)) (k : Nat) (v : String) :
    List (Nat × String) :=
  match m with
  | [] => [(k, v)]
  | (k0, v0) :: rest =>
    if k0 == k then (k0, v) :: rest
    else (k0, v0) :: assocInsert rest k v

/-- Go map lookup `m[k]` on the association-list model. -/
def assocLookup (m : List (Nat × String)) (k : Nat) : Option String :=
  match m with
  | [] => none
  | (k0, v0) :: rest => if k0 == k then some v0 else assocLookup rest k

/-- The merge `for key, hash := range txResponse.TxsHashes {
txsHashes[groupOfTxs[key].Index] = hash }`.  A key outside the group's
bounds would panic in Go; the model leaves the map unchanged there (no
claim exercises that case). -/
def mergeHashes (groupOfTxs : List Transaction) (pairs : List (Nat × String))
    (acc : List (Nat × String)) : List (Nat × String) :=
  match pairs with
  | [] => acc
  | (key, hash) :: rest =>
    match groupOfTxs.get? key with
    | some tx => mergeHashes groupOfTxs rest (assocInsert acc tx.index hash)
    | none => mergeHashes groupOfTxs rest acc

/-- The per-group observer loop of `SendMultipleTransactions`: the first
POST answering 200 with a nil error supplies the group response; every
other outcome merely skips to the next observer. -/
def sendMultiGroupLoop (env : Env) (groupOfTxs : List Transaction) :
    List Observer → Option ResponseMultipleTransactions
  | [] => none
  | o :: rest =>
    let r := env.callPostSendMultiple o.address groupOfTxs
    if r.code == 200 && r.err == none then some r.resp
    else sendMultiGroupLoop env groupOfTxs rest

/-- The `range txsByShardID` loop of `SendMultipleTransactions`: a
`GetObservers` failure aborts with `ErrMissingObserver`; a group whose
observers are exhausted contributes nothing; a successful group adds its
`NumOfTxs` and merges its hashes keyed by the grouped `Index`. -/
def processGroups (env : Env) :
    List (Nat × List Transaction) → Nat → List (Nat × String) →
    Except ProxyError (Nat × List (Nat × String))
  | [], total, hashes => .ok (total, hashes)
  | (shardID, groupOfTxs) :: rest, total, hashes =>
    match env.getObservers shardID with
    | .error _ => .error .missingObserver
    | .ok observersInShard =>
      match sendMultiGroupLoop env groupOfTxs observersInShard with
      | some resp =>
          processGroups env rest (total + resp.numOfTxs)
            (mergeHashes groupOfTxs resp.txsHashes hashes)
      | none => processGroups env rest total hashes

/-- Splice the post-mutation values of the valid transactions back into the
caller's full slice: position `p` of the result is the caller-visible value
of input transaction `p` after the call (valid transactions are shared by
pointer with `txsToSend`, invalid ones are untouched). -/
def patchValid (env : Env) : List Transaction → List Transaction → List Transaction
  | [], _ => []
  | tx :: rest, repl =>
    if (checkTransactionFields env tx).isNone then
      match repl with
      | r :: repl2 => r :: patchValid env rest repl2
      | [] => tx :: patchValid env rest []
    else tx :: patchValid env rest repl

/-- Result of `SendMultipleTransactions`: the
`(data.ResponseMultipleTransactions, error)` pair plus the ghost
post-call value of the caller's transaction slice. -/
structure MultiSendResult where
  numOfTxs : Nat
  txsHashes : List (Nat × String)
  err : Option ProxyError
  finalTxs : List Transaction
deriving DecidableEq

/-- `TransactionProcessor.SendMultipleTransactions`: filter the valid
transactions, group them by sender shard (stamping `Index` in place), and
send each group to the first answering observer of its shard. -/
def SendMultipleTransactions (env : Env) (txs : List Transaction) : MultiSendResult :=
  let txsToSend := txs.filter (fun tx => (checkTransactionFields env tx).isNone)
  if txsToSend.length == 0 then
    ⟨0, [], some .noValidTransactionToSend, txs⟩
  else
    let g := groupTxsByShard env txsToSend
    let finalTxs := patchValid env txs g.2
    match processGroups env g.1 0 [] with
    | .error e => ⟨0, [], some e, finalTxs⟩
    | .ok (total, hashes) => ⟨total, hashes, none, finalTxs⟩

/-- Result of `AccountProcessor.GetAccount`: the `(*data.Account, error)`
pair plus the ghost list of observer addresses actually called. -/
structure AccountResult where
  account : Option Account
  err : Option ProxyError
  called : List String
deriving DecidableEq

/-- The loop of `AccountProcessor.GetAccount`: the returned status code is
discarded (`_, err = CallGetRestEndPoint(...)`); any non-nil error skips to
the next observer, a nil error returns that observer's account, and
exhaustion yields `ErrSendingRequest`. -/
def getAccountLoop (env : Env) (address : String) : List Observer → AccountResult
  | [] => ⟨none, some .sendingRequest, []⟩
  | o :: rest =>
    let r := env.callGetAccount o.address (AddressPath ++ address)
    match r.err with
    | none => ⟨some r.resp.accountData, none, [o.address]⟩
    | some _ =>
      let k := getAccountLoop env address rest
      ⟨k.account, k.err, o.address :: k.called⟩

/-- `AccountProcessor.getObserversForAddress`: decode the address, compute
its shard, fetch that shard's observers. -/
def getObserversForAddress (env : Env) (address : String) :
    Except ProxyError (List Observer) :=
  match env.decode address with
  | .error m => .error (.decodeError m)
  | .ok addressBytes =>
    match env.computeShardId addressBytes with
    | .error m => .error (.computeShardIdError m)
    | .ok shardID =>
      match env.getObservers shardID with
      | .error m => .error (.getObserversError m)
      | .ok observers => .ok observers

/-- `AccountProcessor.GetAccount`. -/
def GetAccount (env : Env) (address : String) : AccountResult :=
  match getObserversForAddress env address with
  | .error e => ⟨none, some e, []⟩
  | .ok observers => getAccountLoop env address observers

/-- The "hit" condition of the transaction read loops: the GET on
`/transaction/{hash}` at this observer returned a nil error and code 200. -/
def txHit (env : Env) (txHash : String) (o : Observer) : Prop :=
  (env.callGetTx o.address (TransactionPath ++ txHash)).err = none ∧
  (env.callGetTx o.address (TransactionPath ++ txHash)).code = 200

instance (env : Env) (txHash : String) (o : Observer) : Decidable (txHit env txHash o) := by
  unfold txHit
  infer_instance

/-- A base environment for concrete scenarios: no observers, every decode
fails, every call answers 404 with a nil error. -/
def baseEnv : Env where
  decode := fun _ => .error "cannot decode"
  computeShardId := fun _ => .ok 0
  getObservers := fun _ => .error "missing observer"
  getAllObservers := []
  callGetTx := fun _ _ => ⟨404, none, ⟨⟨"", "", ""⟩⟩⟩
  callPostSendTx := fun _ _ => ⟨404, none, ⟨""⟩⟩
  callPostSendMultiple := fun _ _ => ⟨404, none, ⟨0, []⟩⟩
  callPostCost := fun _ _ => ⟨404, none, ⟨0⟩⟩
  callGetAccount := fun _ _ => ⟨404, some "not found", ⟨⟨""⟩⟩⟩

/-- Exhausted-read scenario: one observer, every transaction GET answers
404 with a nil error, every address decodes to shard 0. -/
def envC2 : Env :=
  { baseEnv with
    decode := fun _ => .ok [1]
    getObservers := fun _ => .ok [⟨"obsA", 0⟩]
    getAllObservers := [⟨"obsA", 0⟩] }

/-- Single observer answering the transaction GET with 404 and a nil
error. -/
def envC8 : Env :=
  { baseEnv with getAllObservers := [⟨"obsA", 0⟩] }

/-- Two observers: the first misses the transaction GET (404), the second
hits (200, nil error). -/
def envC8w : Env :=
  { baseEnv with
    getAllObservers := [⟨"obsB", 0⟩, ⟨"obsA", 0⟩]
    callGetTx := fun a _ =>
      if a = "obsA" then ⟨200, none, ⟨⟨"s", "r", "executed"⟩⟩⟩
      else ⟨404, none, ⟨⟨"", "", ""⟩⟩⟩ }

/-- The spec's fatal-short-circuit scenario: observers [A, B, C] in the
address's shard; the GET to A fails with HTTP 500 and message "boom"; B
and C answer 200. -/
def envC4 : Env :=
  { baseEnv with
    decode := fun _ => .ok [1]
    getObservers := fun _ => .ok [⟨"obsA", 0⟩, ⟨"obsB", 0⟩, ⟨"obsC", 0⟩]
    callGetAccount := fun a _ =>
      if a = "obsA" then ⟨500, some "boom", ⟨⟨""⟩⟩⟩
      else if a = "obsB" then ⟨200, none, ⟨⟨"7"⟩⟩⟩
      else ⟨200, none, ⟨⟨"9"⟩⟩⟩ }

/-- One observer whose account GET always fails. -/
def envC4b : Env :=
  { baseEnv with
    decode := fun _ => .ok [1]
    getObservers := fun _ => .ok [⟨"obsA", 0⟩] }

/-- The success outcome of one POST of `tx` to observer `o` on
`/transaction/send`: code 200 and a nil error. -/
def postSendOk (env : Env) (tx : Transaction) (o : Observer) : Prop :=
  (env.callPostSendTx o.address tx).code = 200 ∧
  (env.callPostSendTx o.address tx).err = none

instance (env : Env) (tx : Transaction) (o : Observer) :
    Decidable (postSendOk env tx o) := by
  unfold postSendOk
  infer_instance

/-- The skip outcome of one POST on `/transaction/send`: not a success,
and the code is 404 or 408. -/
def postSendSkip (env : Env) (tx : Transaction) (o : Observer) : Prop :=
  ¬ postSendOk env tx o ∧
  ((env.callPostSendTx o.address tx).code = 404 ∨
   (env.callPostSendTx o.address tx).code = 408)

instance (env : Env) (tx : Transaction) (o : Observer) :
    Decidable (postSendSkip env tx o) := by
  unfold postSendSkip
  infer_instance

/-- A transaction whose fields validate in the scenario environments
(signature `""` is valid hex of even length). -/
def txC3 : Transaction := ⟨0, "", "r", "s", 0, 0, "", "", 0⟩

/-- Send scenario: sender shard 0 has observers [o1, o2]; o1 answers 404
(skip) and o2 answers 200 with hash "h1". -/
def envC3a : Env :=
  { baseEnv with
    decode := fun _ => .ok [1]
    getObservers := fun _ => .ok [⟨"o1", 0⟩, ⟨"o2", 0⟩]
    callPostSendTx := fun a _ =>
      if a = "o2" then ⟨200, none, ⟨"h1"⟩⟩ else ⟨404, none, ⟨""⟩⟩ }

/-- Send scenario: o1 answers 404 (skip) and o2 answers a fatal 500 with
an error. -/
def envC3b : Env :=
  { baseEnv with
    decode := fun _ => .ok [1]
    getObservers := fun _ => .ok [⟨"o1", 0⟩, ⟨"o2", 0⟩]
    callPostSendTx := fun a _ =>
      if a = "o2" then ⟨500, some "bad request", ⟨""⟩⟩ else ⟨404, none, ⟨""⟩⟩ }

/-- Send scenario: every observer answers 404 with a nil error. -/
def envC3c : Env :=
  { baseEnv with
    decode := fun _ => .ok [1]
    getObservers := fun _ => .ok [⟨"o1", 0⟩, ⟨"o2", 0⟩] }

/-- The success outcome of one POST of `tx` to observer `o` on
`/transaction/cost`: code 200 and a nil error. -/
def costOk (env : Env) (tx : Transaction) (o : Observer) : Prop :=
  (env.callPostCost o.address tx).code = 200 ∧
  (env.callPostCost o.address tx).err = none

instance (env : Env) (tx : Transaction) (o : Observer) :
    Decidable (costOk env tx o) := by
  unfold costOk
  infer_instance

/-- The skip outcome of one POST on `/transaction/cost`. -/
def costSkip (env : Env) (tx : Transaction) (o : Observer) : Prop :=
  ¬ costOk env tx o ∧
  ((env.callPostCost o.address tx).code = 404 ∨
   (env.callPostCost o.address tx).code = 408)

instance (env : Env) (tx : Transaction) (o : Observer) :
    Decidable (costSkip env tx o) := by
  unfold costSkip
  infer_instance

/-- The observer inventory with the metachain observers removed, in
inventory order: the candidates the cost loop actually POSTs to. -/
def nonMetaObservers (env : Env) : List Observer :=
  env.getAllObservers.filter (fun o => !(o.shardId == metachainShardId))

/-- Cost scenario: the inventory starts with a metachain observer that
would answer 200; the non-metachain observers are o1 (404, skip) and o2
(200, cost 57). -/
def envC7 : Env :=
  { baseEnv with
    decode := fun _ => .ok [1]
    getAllObservers := [⟨"m", metachainShardId⟩, ⟨"o1", 0⟩, ⟨"o2", 1⟩]
    callPostCost := fun a _ =>
      if a = "o2" then ⟨200, none, ⟨57⟩⟩
      else if a = "m" then ⟨200, none, ⟨99⟩⟩
      else ⟨404, none, ⟨0⟩⟩ }

/-- Cost scenario: only a metachain observer and one 404-answering
observer; the loop exhausts. -/
def envC7b : Env :=
  { baseEnv with
    decode := fun _ => .ok [1]
    getAllObservers := [⟨"m", metachainShardId⟩, ⟨"o1", 0⟩] }

/-- Cross-shard status scenario (spec scenario 4): sender "s" in shard 0,
receiver "r" in shard 1; the only global observer is shard-0 A0, which
answers 200 with status "pending"; the destination-shard observer X1
answers 200 with status "success". -/
def envC1 : Env :=
  { baseEnv with
    decode := fun a =>
      if a = "s" then .ok [0] else if a = "r" then .ok [1] else .error "bad"
    computeShardId := fun b => if b = [1] then .ok 1 else .ok 0
    getAllObservers := [⟨"A0", 0⟩]
    getObservers := fun s => if s = 1 then .ok [⟨"X1", 1⟩] else .ok [⟨"A0", 0⟩]
    callGetTx := fun a _ =>
      if a = "A0" then ⟨200, none, ⟨⟨"s", "r", "pending"⟩⟩⟩
      else if a = "X1" then ⟨200, none, ⟨⟨"s", "r", "success"⟩⟩⟩
      else ⟨404, none, ⟨⟨"", "", ""⟩⟩⟩ }

/-- Destination-unreachable scenario (spec scenario 5): as `envC1` but the
destination-shard observer answers 404 on the hash. -/
def envC1b : Env :=
  { baseEnv with
    decode := fun a =>
      if a = "s" then .ok [0] else if a = "r" then .ok [1] else .error "bad"
    computeShardId := fun b => if b = [1] then .ok 1 else .ok 0
    getAllObservers := [⟨"A0", 0⟩]
    getObservers := fun s => if s = 1 then .ok [⟨"X1", 1⟩] else .ok [⟨"A0", 0⟩]
    callGetTx := fun a _ =>
      if a = "A0" then ⟨200, none, ⟨⟨"s", "r", "pending"⟩⟩⟩
      else ⟨404, none, ⟨⟨"", "", ""⟩⟩⟩ }

/-- Lookup of a shard's group in the association-list model of the Go map
`map[uint32][]*data.Transaction` (first matching binding; `[]` when the
shard has no binding). -/
def groupsLookup (m : List (Nat × List Transaction)) (s : Nat) : List Transaction :=
  match m with
  | [] => []
  | (s0, g) :: rest => if s0 == s then g else groupsLookup rest s

/-- The shard a transaction is routed to during grouping: `some s` iff its
sender decodes and `ComputeShardId` succeeds with `s` (the two skip
conditions of `groupTxsByShard`'s loop body). -/
def shardOfTx (env : Env) (tx : Transaction) : Option Nat :=
  match env.decode tx.sender with
  | .error _ => none
  | .ok b =>
    match env.computeShardId b with
    | .error _ => none
    | .ok s => some s

/-- The transactions `groupTxsByShard` routes to shard `s` from the slice
`txs` when the running range index starts at `idx`: those whose shard is
`s`, re-stamped with their running index. -/
def groupedFrom (env : Env) : List Transaction → Nat → Nat → List Transaction
  | [], _, _ => []
  | tx :: rest, idx, s =>
    match shardOfTx env tx with
    | none => groupedFrom env rest (idx + 1) s
    | some s0 =>
      if s0 == s then { tx with index := idx } :: groupedFrom env rest (idx + 1) s
      else groupedFrom env rest (idx + 1) s

/-- The number of transactions one shard group contributes to `NumOfTxs`:
its response's `NumOfTxs` when some observer accepted the POST, else 0. -/
def groupContribution (env : Env) (sg : Nat × List Transaction) : Nat :=
  match env.getObservers sg.1 with
  | .error _ => 0
  | .ok obs =>
    match sendMultiGroupLoop env sg.2 obs with
    | some resp => resp.numOfTxs
    | none => 0

/-- The hash map accumulated by the group loop when every `GetObservers`
call succeeds: each successfully posted group merges its hashes. -/
def processGroupsHashes (env : Env) :
    List (Nat × List Transaction) → List (Nat × String) → List (Nat × String)
  | [], hashes => hashes
  | sg :: rest, hashes =>
    match env.getObservers sg.1 with
    | .error _ => processGroupsHashes env rest hashes
    | .ok obs =>
      match sendMultiGroupLoop env sg.2 obs with
      | some resp => processGroupsHashes env rest (mergeHashes sg.2 resp.txsHashes hashes)
      | none => processGroupsHashes env rest hashes

/-- An invalid bulk-send input: its sender does not decode in `envC5`. -/
def txC5bad : Transaction := ⟨0, "", "g", "bad", 0, 0, "", "", 0⟩

/-- A valid bulk-send input at original position 1 in the client array. -/
def txC5good : Transaction := ⟨0, "", "g", "g", 0, 0, "", "", 0⟩

/-- Bulk-send scenario: the sender "bad" fails to decode, everything else
decodes to shard 0; the single shard-0 observer accepts the POST and
reports one hash at group position 0. -/
def envC5 : Env :=
  { baseEnv with
    decode := fun a => if a = "bad" then .error "x" else .ok [1]
    getObservers := fun _ => .ok [⟨"o1", 0⟩]
    callPostSendMultiple := fun _ _ => ⟨200, none, ⟨1, [(0, "Hb")]⟩⟩ }

/-- A valid transaction whose caller-set `Index` is 7. -/
def txC6 : Transaction := ⟨0, "", "g", "g", 0, 0, "", "", 7⟩

/-- Frame scenario: one valid transaction, one accepting observer. -/
def envC6 : Env :=
  { baseEnv with
    decode := fun _ => .ok [1]
    getObservers := fun _ => .ok [⟨"o1", 0⟩]
    callPostSendMultiple := fun _ _ => ⟨200, none, ⟨1, [(0, "Hb")]⟩⟩ }

/-- A valid transaction routed to shard 0 in `envC10`. -/
def txC10a : Transaction := ⟨0, "", "g", "a", 0, 0, "", "", 0⟩

/-- A valid transaction routed to shard 1 in `envC10`. -/
def txC10b : Transaction := ⟨0, "", "g", "b", 0, 0, "", "", 0⟩

/-- Bulk-send scenario with two shard groups: shard 0's observer accepts
the POST (one hash), shard 1's observer answers 404 so that group is
abandoned without any successful POST. -/
def envC10 : Env :=
  { baseEnv with
    decode := fun a => if a = "a" then .ok [0] else .ok [1]
    computeShardId := fun b => if b = [0] then .ok 0 else .ok 1
    getObservers := fun s => if s = 0 then .ok [⟨"o0", 0⟩] else .ok [⟨"o1", 1⟩]
    callPostSendMultiple := fun a _ =>
      if a = "o0" then ⟨200, none, ⟨1, [(0, "HA")]⟩⟩ else ⟨404, none, ⟨0, []⟩⟩ }

theorem getTxFromObserver_eq_none_iff (env : Env) (txHash : String) (o : Observer) :
    getTxFromObserver env o txHash = none ↔ ¬ txHit env txHash o := by
  unfold getTxFromObserver txHit
  by_cases h1 : (env.callGetTx o.address (TransactionPath ++ txHash)).err = none
  · by_cases h2 : (env.callGetTx o.address (TransactionPath ++ txHash)).code = 200
    · simp [h1, h2]
    · simp [h1, h2]
  · simp [h1, Option.isSome_iff_ne_none]

theorem getTxFromObserver_of_hit (env : Env) (txHash : String) (o : Observer)
    (h : txHit env txHash o) :
    getTxFromObserver env o txHash =
      some (env.callGetTx o.address (TransactionPath ++ txHash)).resp := by
  unfold getTxFromObserver
  simp [h.1, h.2]

theorem getTxStatusLoop_cons_miss (env : Env) (txHash : String) (o : Observer)
    (l : List Observer) (h : ¬ txHit env txHash o) :
    getTxStatusLoop env txHash (o :: l) = getTxStatusLoop env txHash l := by
  simp only [getTxStatusLoop]
  rw [(getTxFromObserver_eq_none_iff env txHash o).mpr h]

theorem getTxStatusLoop_all_miss (env : Env) (txHash : String) :
    ∀ l : List Observer, (∀ o ∈ l, ¬ txHit env txHash o) →
      getTxStatusLoop env txHash l = (UnknownStatusTx, some ProxyError.transactionNotFound)
  | [], _ => rfl
  | o :: l, h => by
    rw [getTxStatusLoop_cons_miss env txHash o l (h o (List.mem_cons_self o l))]
    exact getTxStatusLoop_all_miss env txHash l (fun p hp => h p (List.mem_cons_of_mem o hp))

theorem getTxStatusWithSenderLoop_cons_miss (env : Env) (txHash : String)
    (sndShardID : Nat) (o : Observer) (l : List Observer) (h : ¬ txHit env txHash o) :
    getTxStatusWithSenderLoop env txHash sndShardID (o :: l) =
      getTxStatusWithSenderLoop env txHash sndShardID l := by
  simp only [getTxStatusWithSenderLoop]
  rw [(getTxFromObserver_eq_none_iff env txHash o).mpr h]

theorem getTxStatusWithSenderLoop_all_miss (env : Env) (txHash : String) (sndShardID : Nat) :
    ∀ l : List Observer, (∀ o ∈ l, ¬ txHit env txHash o) →
      getTxStatusWithSenderLoop env txHash sndShardID l =
        (UnknownStatusTx, some ProxyError.transactionNotFound)
  | [], _ => rfl
  | o :: l, h => by
    rw [getTxStatusWithSenderLoop_cons_miss env txHash sndShardID o l
      (h o (List.mem_cons_self o l))]
    exact getTxStatusWithSenderLoop_all_miss env txHash sndShardID l
      (fun p hp => h p (List.mem_cons_of_mem o hp))

theorem getTxStatusWithSenderLoop_snd_ne_invalid (env : Env) (txHash : String) (s : Nat) :
    ∀ l : List Observer,
      (getTxStatusWithSenderLoop env txHash s l).2 ≠ some ProxyError.invalidSenderAddress
  | [] => by simp [getTxStatusWithSenderLoop]
  | o :: l => by
    simp only [getTxStatusWithSenderLoop]
    cases getTxFromObserver env o txHash with
    | none => exact getTxStatusWithSenderLoop_snd_ne_invalid env txHash s l
    | some resp =>
      dsimp only
      split
      · simp
      · split <;> simp

theorem getTxByHashSenderLoop_ne_invalid (env : Env) (txHash : String) :
    ∀ l : List Observer,
      (getTxByHashSenderLoop env txHash l).2.2 ≠ some ProxyError.invalidSenderAddress
  | [] => by simp [getTxByHashSenderLoop]
  | o :: l => by
    simp only [getTxByHashSenderLoop]
    split
    · exact getTxByHashSenderLoop_ne_invalid env txHash l
    · split
      · exact getTxByHashSenderLoop_ne_invalid env txHash l
      · simp

/-- C9: a sender address string equal to the decimal rendering of the
metachain id (`"4294967295"`) resolves to the metachain shard id without
being decoded (the result holds for every environment, in particular for
ones whose decoder rejects every string), so neither
`getTxStatusWithSenderAddr` nor `GetTransactionByHashAndSenderAddress` can
fail with the invalid-sender-address error at the shard-resolution step. -/
theorem metachain_literal_sender_resolves_without_decoding (env : Env) (txHash : String) :
    getShardByAddress env "4294967295" = Except.ok metachainShardId ∧
    (getTxStatusWithSenderAddr env txHash "4294967295").2 ≠
      some ProxyError.invalidSenderAddress ∧
    (GetTransactionByHashAndSenderAddress env txHash "4294967295").2.2 ≠
      some ProxyError.invalidSenderAddress := by
  have hstr : ¬ (("4294967295" : String) ≠ Nat.repr metachainShardId) := by decide
  have h1 : getShardByAddress env "4294967295" = Except.ok metachainShardId := by
    unfold getShardByAddress
    rw [if_neg hstr]
  refine ⟨h1, ?_, ?_⟩
  · unfold getTxStatusWithSenderAddr
    rw [h1]
    dsimp only
    cases hobs : env.getObservers metachainShardId with
    | error m => simp [hobs]
    | ok obs =>
      simp only [hobs]
      exact getTxStatusWithSenderLoop_snd_ne_invalid env txHash metachainShardId obs
  · unfold GetTransactionByHashAndSenderAddress
    rw [h1]
    dsimp only
    cases hobs : env.getObservers metachainShardId with
    | error m => simp [hobs]
    | ok obs =>
      simp only [hobs]
      exact getTxByHashSenderLoop_ne_invalid env txHash obs

/-- C2: whenever the candidate observers are exhausted without any of them
answering the transaction GET with code 200 and a nil error, the status
call returns exactly `("unknown", ErrTransactionNotFound)` — both without a
sender hint (candidates are all observers) and with one (candidates are
the resolved sender shard's observers). -/
theorem getTransactionStatus_exhausted_returns_unknown (env : Env) (txHash sender : String) :
    (sender = "" →
      (∀ o ∈ env.getAllObservers, ¬ txHit env txHash o) →
      GetTransactionStatus env txHash sender =
        (UnknownStatusTx, some ProxyError.transactionNotFound)) ∧
    (∀ sndShardID observers, sender ≠ "" →
      getShardByAddress env sender = Except.ok sndShardID →
      env.getObservers sndShardID = Except.ok observers →
      (∀ o ∈ observers, ¬ txHit env txHash o) →
      GetTransactionStatus env txHash sender =
        (UnknownStatusTx, some ProxyError.transactionNotFound)) := by
  constructor
  · intro hs hmiss
    subst hs
    unfold GetTransactionStatus
    rw [if_neg (by simp)]
    exact getTxStatusLoop_all_miss env txHash _ hmiss
  · intro sndShardID observers hs hshard hobs hmiss
    unfold GetTransactionStatus
    rw [if_pos hs]
    unfold getTxStatusWithSenderAddr
    rw [hshard]
    dsimp only
    rw [hobs]
    exact getTxStatusWithSenderLoop_all_miss env txHash sndShardID observers hmiss

theorem getTransactionStatus_exhausted_returns_unknown_witness :
    GetTransactionStatus envC2 "aa" "" = (UnknownStatusTx, some ProxyError.transactionNotFound) ∧
    GetTransactionStatus envC2 "aa" "snd" =
      (UnknownStatusTx, some ProxyError.transactionNotFound) := by
  constructor
  · exact (getTransactionStatus_exhausted_returns_unknown envC2 "aa" "").1 rfl (by decide)
  · exact (getTransactionStatus_exhausted_returns_unknown envC2 "aa" "snd").2 0 [⟨"obsA", 0⟩]
      (by decide) (by rfl) (by rfl) (by decide)

theorem getTxLoop_cons_miss (env : Env) (txHash : String) (e : Option String)
    (o : Observer) (l : List Observer) (h : ¬ txHit env txHash o) :
    getTxLoop env txHash e (o :: l) =
      getTxLoop env txHash (env.callGetTx o.address (TransactionPath ++ txHash)).err l := by
  simp only [getTxLoop]
  by_cases h1 : (env.callGetTx o.address (TransactionPath ++ txHash)).code = 200
  · have h2 : (env.callGetTx o.address (TransactionPath ++ txHash)).err ≠ none :=
      fun hn => h ⟨hn, h1⟩
    rw [if_neg (by simp [h1]), if_pos (by simp [Option.isSome_iff_ne_none, h2])]
  · rw [if_pos h1]

theorem getTxLoop_cons_hit (env : Env) (txHash : String) (e : Option String)
    (o : Observer) (l : List Observer) (h : txHit env txHash o) :
    getTxLoop env txHash e (o :: l) =
      (some (env.callGetTx o.address (TransactionPath ++ txHash)).resp.transaction, none) := by
  simp only [getTxLoop]
  rw [if_neg (by simp [h.2]), if_neg (by simp [h.1])]

theorem getTxLoop_all_miss (env : Env) (txHash : String) :
    ∀ (l : List Observer) (e : Option String), (∀ o ∈ l, ¬ txHit env txHash o) →
      getTxLoop env txHash e l =
        (none, match l.getLast? with
               | none => e
               | some o => (env.callGetTx o.address (TransactionPath ++ txHash)).err)
  | [], _, _ => rfl
  | o :: l, e, h => by
    rw [getTxLoop_cons_miss env txHash e o l (h o (List.mem_cons_self o l))]
    rw [getTxLoop_all_miss env txHash l _ (fun p hp => h p (List.mem_cons_of_mem o hp))]
    cases l with
    | nil => rfl
    | cons p l' =>
      rw [List.getLast?_cons_cons]
      cases hq : (p :: l').getLast? with
      | none => simp at hq
      | some q => rfl

theorem getTxLoop_first_hit (env : Env) (txHash : String) (o : Observer)
    (post : List Observer) (hhit : txHit env txHash o) :
    ∀ (pre : List Observer) (e : Option String), (∀ p ∈ pre, ¬ txHit env txHash p) →
      getTxLoop env txHash e (pre ++ o :: post) =
        (some (env.callGetTx o.address (TransactionPath ++ txHash)).resp.transaction, none)
  | [], e, _ => getTxLoop_cons_hit env txHash e o post hhit
  | p :: pre, e, h => by
    rw [List.cons_append,
      getTxLoop_cons_miss env txHash e p (pre ++ o :: post) (h p (List.mem_cons_self p pre))]
    exact getTxLoop_first_hit env txHash o post hhit pre _
      (fun q hq => h q (List.mem_cons_of_mem p hq))

/-- C8 (counterexample): with a single observer answering the transaction
GET with 404 and a nil error, `GetTransaction` exhausts its observers and
returns a nil transaction together with a NIL error — contradicting the
claim that exhaustion yields a non-nil error. -/
theorem getTransaction_exhausted_nil_error_cex :
    (GetTransaction envC8 "aa").1 = none ∧ (GetTransaction envC8 "aa").2 = none := by
  decide

/-- C8 (amended): `GetTransaction` iterates all observers, returns the
transaction of the first observer whose GET yields 200 with a nil error,
and skips on every other outcome; on exhaustion it returns a nil
transaction paired with the error recorded from the LAST observer call —
which is nil when that call (or the empty inventory) produced no error. -/
theorem getTransaction_first_hit_and_trailing_error (env : Env) (txHash : String) :
    (∀ pre o post, env.getAllObservers = pre ++ o :: post →
      (∀ p ∈ pre, ¬ txHit env txHash p) → txHit env txHash o →
      GetTransaction env txHash =
        (some (env.callGetTx o.address (TransactionPath ++ txHash)).resp.transaction, none)) ∧
    ((∀ o ∈ env.getAllObservers, ¬ txHit env txHash o) →
      GetTransaction env txHash =
        (none, match env.getAllObservers.getLast? with
               | none => none
               | some o => (env.callGetTx o.address (TransactionPath ++ txHash)).err)) := by
  constructor
  · intro pre o post hsplit hmiss hhit
    unfold GetTransaction
    rw [hsplit]
    exact getTxLoop_first_hit env txHash o post hhit pre none hmiss
  · intro hmiss
    unfold GetTransaction
    exact getTxLoop_all_miss env txHash env.getAllObservers none hmiss

theorem getTransaction_first_hit_and_trailing_error_witness :
    GetTransaction envC8w "aa" = (some ⟨"s", "r", "executed"⟩, none) ∧
    GetTransaction envC8 "aa" = (none, none) := by
  constructor
  · exact (getTransaction_first_hit_and_trailing_error envC8w "aa").1
      [⟨"obsB", 0⟩] ⟨"obsA", 0⟩ [] rfl (by decide) (by decide)
  · exact ((getTransaction_first_hit_and_trailing_error envC8 "aa").2 (by decide)).trans
      (by decide)

theorem getAccountLoop_cons_err (env : Env) (address : String) (o : Observer)
    (l : List Observer)
    (h : (env.callGetAccount o.address (AddressPath ++ address)).err ≠ none) :
    getAccountLoop env address (o :: l) =
      ⟨(getAccountLoop env address l).account, (getAccountLoop env address l).err,
        o.address :: (getAccountLoop env address l).called⟩ := by
  simp only [getAccountLoop]
  cases herr : (env.callGetAccount o.address (AddressPath ++ address)).err with
  | none => exact absurd herr h
  | some m => rfl

theorem getAccountLoop_cons_ok (env : Env) (address : String) (o : Observer)
    (l : List Observer)
    (h : (env.callGetAccount o.address (AddressPath ++ address)).err = none) :
    getAccountLoop env address (o :: l) =
      ⟨some (env.callGetAccount o.address (AddressPath ++ address)).resp.accountData,
        none, [o.address]⟩ := by
  simp only [getAccountLoop]
  rw [h]

theorem getAccountLoop_first_ok (env : Env) (address : String) (o : Observer)
    (post : List Observer)
    (hok : (env.callGetAccount o.address (AddressPath ++ address)).err = none) :
    ∀ pre : List Observer,
      (∀ p ∈ pre, (env.callGetAccount p.address (AddressPath ++ address)).err ≠ none) →
      getAccountLoop env address (pre ++ o :: post) =
        ⟨some (env.callGetAccount o.address (AddressPath ++ address)).resp.accountData,
          none, (pre ++ [o]).map Observer.address⟩
  | [], _ => by
    rw [List.nil_append, getAccountLoop_cons_ok env address o post hok]
    simp
  | p :: pre, h => by
    rw [List.cons_append,
      getAccountLoop_cons_err env address p (pre ++ o :: post) (h p (List.mem_cons_self p pre)),
      getAccountLoop_first_ok env address o post hok pre
        (fun q hq => h q (List.mem_cons_of_mem p hq))]
    simp

theorem getAccountLoop_all_err (env : Env) (address : String) :
    ∀ l : List Observer,
      (∀ o ∈ l, (env.callGetAccount o.address (AddressPath ++ address)).err ≠ none) →
      getAccountLoop env address l =
        ⟨none, some ProxyError.sendingRequest, l.map Observer.address⟩
  | [], _ => rfl
  | o :: l, h => by
    rw [getAccountLoop_cons_err env address o l (h o (List.mem_cons_self o l)),
      getAccountLoop_all_err env address l (fun p hp => h p (List.mem_cons_of_mem o hp))]
    simp

/-- C4 (counterexample): in the spec's scenario — observers [A, B, C], A
answering 500 with message "boom", B answering 200 — `GetAccount` does NOT
terminate at A: it calls B as well and returns B's account with a nil
error; neither the 500 code nor "boom" is surfaced. -/
theorem getAccount_fatal_short_circuit_cex :
    GetAccount envC4 "addr" = ⟨some ⟨"7"⟩, none, ["obsA", "obsB"]⟩ := by
  decide

/-- C4 (amended): `GetAccount` discards the HTTP status code and treats
EVERY call error (including a 500 with a message) as a skip-and-try-next
signal: it returns the account of the first observer whose GET yields a
nil error, having called exactly the observers up to and including it, and
on exhaustion it returns the `ErrSendingRequest` error (no status code or
observer message is surfaced). -/
theorem getAccount_any_error_skips (env : Env) (address : String) :
    ∀ obs, getObserversForAddress env address = Except.ok obs →
      ((∀ pre o post, obs = pre ++ o :: post →
          (∀ p ∈ pre, (env.callGetAccount p.address (AddressPath ++ address)).err ≠ none) →
          (env.callGetAccount o.address (AddressPath ++ address)).err = none →
          GetAccount env address =
            ⟨some (env.callGetAccount o.address (AddressPath ++ address)).resp.accountData,
              none, (pre ++ [o]).map Observer.address⟩) ∧
        ((∀ o ∈ obs, (env.callGetAccount o.address (AddressPath ++ address)).err ≠ none) →
          GetAccount env address =
            ⟨none, some ProxyError.sendingRequest, obs.map Observer.address⟩)) := by
  intro obs hobs
  constructor
  · intro pre o post hsplit hpre hok
    unfold GetAccount
    rw [hobs]
    dsimp only
    rw [hsplit]
    exact getAccountLoop_first_ok env address o post hok pre hpre
  · intro hall
    unfold GetAccount
    rw [hobs]
    dsimp only
    exact getAccountLoop_all_err env address obs hall

theorem getAccount_any_error_skips_witness :
    GetAccount envC4 "addr" = ⟨some ⟨"7"⟩, none, ["obsA", "obsB"]⟩ ∧
    GetAccount envC4b "addr" = ⟨none, some ProxyError.sendingRequest, ["obsA"]⟩ := by
  constructor
  · exact ((getAccount_any_error_skips envC4 "addr"
        [⟨"obsA", 0⟩, ⟨"obsB", 0⟩, ⟨"obsC", 0⟩] (by rfl)).1
      [⟨"obsA", 0⟩] ⟨"obsB", 0⟩ [⟨"obsC", 0⟩] rfl (by decide) (by decide)).trans (by decide)
  · exact ((getAccount_any_error_skips envC4b "addr" [⟨"obsA", 0⟩] (by rfl)).2
      (by decide)).trans (by decide)

theorem postSendOk_iff (env : Env) (tx : Transaction) (o : Observer) :
    postSendOk env tx o ↔
      ((env.callPostSendTx o.address tx).code == 200 &&
        ((env.callPostSendTx o.address tx).err == none)) = true := by
  unfold postSendOk
  simp [Bool.and_eq_true]

theorem sendTxLoop_cons_ok (env : Env) (tx : Transaction) (o : Observer)
    (l : List Observer) (h : postSendOk env tx o) :
    sendTxLoop env tx (o :: l) =
      ⟨200, (env.callPostSendTx o.address tx).resp.txHash, none, [o.address]⟩ := by
  simp [sendTxLoop, h.1, h.2]

theorem sendTxLoop_cons_skip (env : Env) (tx : Transaction) (o : Observer)
    (l : List Observer) (h : postSendSkip env tx o) :
    sendTxLoop env tx (o :: l) =
      ⟨(sendTxLoop env tx l).code, (sendTxLoop env tx l).txHash,
        (sendTxLoop env tx l).err, o.address :: (sendTxLoop env tx l).visited⟩ := by
  have hne : ¬ ((env.callPostSendTx o.address tx).code == 200 &&
      ((env.callPostSendTx o.address tx).err == none)) = true :=
    fun hc => h.1 ((postSendOk_iff env tx o).mpr hc)
  have hsk : ((env.callPostSendTx o.address tx).code == 404 ||
      ((env.callPostSendTx o.address tx).code == 408)) = true := by
    rcases h.2 with h4 | h8
    · simp [h4]
    · simp [h8]
  simp [sendTxLoop, hne, hsk]

theorem sendTxLoop_cons_fatal (env : Env) (tx : Transaction) (o : Observer)
    (l : List Observer) (h1 : ¬ postSendOk env tx o)
    (h2 : ¬ ((env.callPostSendTx o.address tx).code = 404 ∨
      (env.callPostSendTx o.address tx).code = 408)) :
    sendTxLoop env tx (o :: l) =
      ⟨(env.callPostSendTx o.address tx).code, "",
        ((env.callPostSendTx o.address tx).err).map ProxyError.callError, [o.address]⟩ := by
  have hne : ¬ ((env.callPostSendTx o.address tx).code == 200 &&
      ((env.callPostSendTx o.address tx).err == none)) = true :=
    fun hc => h1 ((postSendOk_iff env tx o).mpr hc)
  have hsk : ¬ ((env.callPostSendTx o.address tx).code == 404 ||
      ((env.callPostSendTx o.address tx).code == 408)) = true := by
    simp only [Bool.or_eq_true, beq_iff_eq]
    exact h2
  simp [sendTxLoop, hne, hsk]

theorem sendTxLoop_first_ok (env : Env) (tx : Transaction) (o : Observer)
    (post : List Observer) (hok : postSendOk env tx o) :
    ∀ pre : List Observer, (∀ p ∈ pre, postSendSkip env tx p) →
      sendTxLoop env tx (pre ++ o :: post) =
        ⟨200, (env.callPostSendTx o.address tx).resp.txHash, none,
          (pre ++ [o]).map Observer.address⟩
  | [], _ => by
    rw [List.nil_append, sendTxLoop_cons_ok env tx o post hok]
    simp
  | p :: pre, h => by
    rw [List.cons_append,
      sendTxLoop_cons_skip env tx p (pre ++ o :: post) (h p (List.mem_cons_self p pre)),
      sendTxLoop_first_ok env tx o post hok pre (fun q hq => h q (List.mem_cons_of_mem p hq))]
    simp

theorem sendTxLoop_first_fatal (env : Env) (tx : Transaction) (o : Observer)
    (post : List Observer) (h1 : ¬ postSendOk env tx o)
    (h2 : ¬ ((env.callPostSendTx o.address tx).code = 404 ∨
      (env.callPostSendTx o.address tx).code = 408)) :
    ∀ pre : List Observer, (∀ p ∈ pre, postSendSkip env tx p) →
      sendTxLoop env tx (pre ++ o :: post) =
        ⟨(env.callPostSendTx o.address tx).code, "",
          ((env.callPostSendTx o.address tx).err).map ProxyError.callError,
          (pre ++ [o]).map Observer.address⟩
  | [], _ => by
    rw [List.nil_append, sendTxLoop_cons_fatal env tx o post h1 h2]
    simp
  | p :: pre, h => by
    rw [List.cons_append,
      sendTxLoop_cons_skip env tx p (pre ++ o :: post) (h p (List.mem_cons_self p pre)),
      sendTxLoop_first_fatal env tx o post h1 h2 pre
        (fun q hq => h q (List.mem_cons_of_mem p hq))]
    simp

theorem sendTxLoop_all_skip (env : Env) (tx : Transaction) :
    ∀ l : List Observer, (∀ p ∈ l, postSendSkip env tx p) →
      sendTxLoop env tx l =
        ⟨500, "", some ProxyError.sendingRequest, l.map Observer.address⟩
  | [], _ => rfl
  | o :: l, h => by
    rw [sendTxLoop_cons_skip env tx o l (h o (List.mem_cons_self o l)),
      sendTxLoop_all_skip env tx l (fun p hp => h p (List.mem_cons_of_mem o hp))]
    simp

/-- C3: when the fields validate and the sender shard's observers resolve,
`SendTransaction` traverses exactly those observers in inventory order with
the three-outcome pattern on `/transaction/send`: the first 200-with-nil-
error returns `(200, txHash, nil)` having POSTed only to the observers up
to and including it; 404/408 skips to the next observer; any other outcome
returns that code and error immediately; exhaustion returns
`(500, "", ErrSendingRequest)` having POSTed to all of them. -/
theorem sendTransaction_three_outcome (env : Env) (tx : Transaction)
    (senderBuff : List Nat) (shardID : Nat) (observers : List Observer)
    (hv : checkTransactionFields env tx = none)
    (hd : env.decode tx.sender = Except.ok senderBuff)
    (hc : env.computeShardId senderBuff = Except.ok shardID)
    (ho : env.getObservers shardID = Except.ok observers) :
    (∀ pre o post, observers = pre ++ o :: post →
      (∀ p ∈ pre, postSendSkip env tx p) → postSendOk env tx o →
      SendTransaction env tx =
        ⟨200, (env.callPostSendTx o.address tx).resp.txHash, none,
          (pre ++ [o]).map Observer.address⟩) ∧
    (∀ pre o post, observers = pre ++ o :: post →
      (∀ p ∈ pre, postSendSkip env tx p) →
      ¬ postSendOk env tx o →
      ¬ ((env.callPostSendTx o.address tx).code = 404 ∨
        (env.callPostSendTx o.address tx).code = 408) →
      SendTransaction env tx =
        ⟨(env.callPostSendTx o.address tx).code, "",
          ((env.callPostSendTx o.address tx).err).map ProxyError.callError,
          (pre ++ [o]).map Observer.address⟩) ∧
    ((∀ p ∈ observers, postSendSkip env tx p) →
      SendTransaction env tx =
        ⟨500, "", some ProxyError.sendingRequest, observers.map Observer.address⟩) := by
  have hred : SendTransaction env tx = sendTxLoop env tx observers := by
    unfold SendTransaction
    rw [hv]
    dsimp only
    rw [hd]
    dsimp only
    rw [hc]
    dsimp only
    rw [ho]
  refine ⟨?_, ?_, ?_⟩
  · intro pre o post hsplit hpre hok
    rw [hred, hsplit]
    exact sendTxLoop_first_ok env tx o post hok pre hpre
  · intro pre o post hsplit hpre h1 h2
    rw [hred, hsplit]
    exact sendTxLoop_first_fatal env tx o post h1 h2 pre hpre
  · intro hall
    rw [hred]
    exact sendTxLoop_all_skip env tx observers hall

theorem sendTransaction_three_outcome_witness :
    SendTransaction envC3a txC3 = ⟨200, "h1", none, ["o1", "o2"]⟩ ∧
    SendTransaction envC3b txC3 =
      ⟨500, "", some (ProxyError.callError "bad request"), ["o1", "o2"]⟩ ∧
    SendTransaction envC3c txC3 =
      ⟨500, "", some ProxyError.sendingRequest, ["o1", "o2"]⟩ := by
  refine ⟨?_, ?_, ?_⟩
  · exact ((sendTransaction_three_outcome envC3a txC3 [1] 0 [⟨"o1", 0⟩, ⟨"o2", 0⟩]
        (by decide) (by rfl) (by rfl) (by rfl)).1
      [⟨"o1", 0⟩] ⟨"o2", 0⟩ [] rfl (by decide) (by decide)).trans (by decide)
  · exact (((sendTransaction_three_outcome envC3b txC3 [1] 0 [⟨"o1", 0⟩, ⟨"o2", 0⟩]
        (by decide) (by rfl) (by rfl) (by rfl)).2.1)
      [⟨"o1", 0⟩] ⟨"o2", 0⟩ [] rfl (by decide) (by decide) (by decide)).trans (by decide)
  · exact (((sendTransaction_three_outcome envC3c txC3 [1] 0 [⟨"o1", 0⟩, ⟨"o2", 0⟩]
        (by decide) (by rfl) (by rfl) (by rfl)).2.2) (by decide)).trans (by decide)

theorem costOk_iff (env : Env) (tx : Transaction) (o : Observer) :
    costOk env tx o ↔
      ((env.callPostCost o.address tx).code == 200 &&
        ((env.callPostCost o.address tx).err == none)) = true := by
  unfold costOk
  simp [Bool.and_eq_true]

theorem txCostLoop_cons_meta (env : Env) (tx : Transaction) (o : Observer)
    (l : List Observer) (h : o.shardId = metachainShardId) :
    txCostLoop env tx (o :: l) = txCostLoop env tx l := by
  simp [txCostLoop, h]

theorem txCostLoop_cons_ok (env : Env) (tx : Transaction) (o : Observer)
    (l : List Observer) (hm : o.shardId ≠ metachainShardId) (h : costOk env tx o) :
    txCostLoop env tx (o :: l) =
      ⟨Nat.repr (env.callPostCost o.address tx).resp.txCost, none, [o]⟩ := by
  simp [txCostLoop, hm, h.1, h.2]

theorem txCostLoop_cons_skip (env : Env) (tx : Transaction) (o : Observer)
    (l : List Observer) (hm : o.shardId ≠ metachainShardId) (h : costSkip env tx o) :
    txCostLoop env tx (o :: l) =
      ⟨(txCostLoop env tx l).res, (txCostLoop env tx l).err,
        o :: (txCostLoop env tx l).visited⟩ := by
  have hne : ¬ ((env.callPostCost o.address tx).code == 200 &&
      ((env.callPostCost o.address tx).err == none)) = true :=
    fun hb => h.1 ((costOk_iff env tx o).mpr hb)
  have hsk : ((env.callPostCost o.address tx).code == 404 ||
      ((env.callPostCost o.address tx).code == 408)) = true := by
    rcases h.2 with h4 | h8
    · simp [h4]
    · simp [h8]
  simp [txCostLoop, hm, hne, hsk]

theorem txCostLoop_cons_fatal (env : Env) (tx : Transaction) (o : Observer)
    (l : List Observer) (hm : o.shardId ≠ metachainShardId)
    (h1 : ¬ costOk env tx o)
    (h2 : ¬ ((env.callPostCost o.address tx).code = 404 ∨
      (env.callPostCost o.address tx).code = 408)) :
    txCostLoop env tx (o :: l) =
      ⟨"", ((env.callPostCost o.address tx).err).map ProxyError.callError, [o]⟩ := by
  have hne : ¬ ((env.callPostCost o.address tx).code == 200 &&
      ((env.callPostCost o.address tx).err == none)) = true :=
    fun hb => h1 ((costOk_iff env tx o).mpr hb)
  have hsk : ¬ ((env.callPostCost o.address tx).code == 404 ||
      ((env.callPostCost o.address tx).code == 408)) = true := by
    simp only [Bool.or_eq_true, beq_iff_eq]
    exact h2
  simp [txCostLoop, hm, hne, hsk]

theorem txCostLoop_filter_meta (env : Env) (tx : Transaction) :
    ∀ l : List Observer,
      txCostLoop env tx l =
        txCostLoop env tx (l.filter (fun o => !(o.shardId == metachainShardId)))
  | [] => rfl
  | o :: l => by
    by_cases hm : o.shardId = metachainShardId
    · rw [txCostLoop_cons_meta env tx o l hm, txCostLoop_filter_meta env tx l]
      congr 1
      simp [List.filter_cons, hm]
    · have hb : (o.shardId == metachainShardId) = false := by simp [hm]
      have hf : (o :: l).filter (fun p => !(p.shardId == metachainShardId)) =
          o :: l.filter (fun p => !(p.shardId == metachainShardId)) := by
        simp [List.filter_cons, hb]
      rw [hf]
      have IH := txCostLoop_filter_meta env tx l
      simp only [txCostLoop]
      rw [hb, IH]

theorem txCostLoop_visited_nonmeta (env : Env) (tx : Transaction) :
    ∀ l : List Observer, ∀ p ∈ (txCostLoop env tx l).visited,
      p.shardId ≠ metachainShardId
  | [] => by
    intro p hp
    simp [txCostLoop] at hp
  | o :: l => by
    intro p hp
    by_cases hm : o.shardId = metachainShardId
    · rw [txCostLoop_cons_meta env tx o l hm] at hp
      exact txCostLoop_visited_nonmeta env tx l p hp
    · by_cases hok : costOk env tx o
      · rw [txCostLoop_cons_ok env tx o l hm hok] at hp
        simp at hp
        subst hp
        exact hm
      · by_cases hsk : (env.callPostCost o.address tx).code = 404 ∨
            (env.callPostCost o.address tx).code = 408
        · rw [txCostLoop_cons_skip env tx o l hm ⟨hok, hsk⟩] at hp
          rcases List.mem_cons.mp hp with hp' | hp'
          · subst hp'
            exact hm
          · exact txCostLoop_visited_nonmeta env tx l p hp'
        · rw [txCostLoop_cons_fatal env tx o l hm hok hsk] at hp
          simp at hp
          subst hp
          exact hm

theorem txCostLoop_first_ok (env : Env) (tx : Transaction) (o : Observer)
    (post : List Observer) (hm : o.shardId ≠ metachainShardId) (hok : costOk env tx o) :
    ∀ pre : List Observer,
      (∀ p ∈ pre, p.shardId ≠ metachainShardId ∧ costSkip env tx p) →
      txCostLoop env tx (pre ++ o :: post) =
        ⟨Nat.repr (env.callPostCost o.address tx).resp.txCost, none, pre ++ [o]⟩
  | [], _ => by
    rw [List.nil_append, txCostLoop_cons_ok env tx o post hm hok]
    simp
  | p :: pre, h => by
    rw [List.cons_append,
      txCostLoop_cons_skip env tx p (pre ++ o :: post)
        (h p (List.mem_cons_self p pre)).1 (h p (List.mem_cons_self p pre)).2,
      txCostLoop_first_ok env tx o post hm hok pre
        (fun q hq => h q (List.mem_cons_of_mem p hq))]
    simp

theorem txCostLoop_first_fatal (env : Env) (tx : Transaction) (o : Observer)
    (post : List Observer) (hm : o.shardId ≠ metachainShardId)
    (h1 : ¬ costOk env tx o)
    (h2 : ¬ ((env.callPostCost o.address tx).code = 404 ∨
      (env.callPostCost o.address tx).code = 408)) :
    ∀ pre : List Observer,
      (∀ p ∈ pre, p.shardId ≠ metachainShardId ∧ costSkip env tx p) →
      txCostLoop env tx (pre ++ o :: post) =
        ⟨"", ((env.callPostCost o.address tx).err).map ProxyError.callError, pre ++ [o]⟩
  | [], _ => by
    rw [List.nil_append, txCostLoop_cons_fatal env tx o post hm h1 h2]
    simp
  | p :: pre, h => by
    rw [List.cons_append,
      txCostLoop_cons_skip env tx p (pre ++ o :: post)
        (h p (List.mem_cons_self p pre)).1 (h p (List.mem_cons_self p pre)).2,
      txCostLoop_first_fatal env tx o post hm h1 h2 pre
        (fun q hq => h q (List.mem_cons_of_mem p hq))]
    simp

theorem txCostLoop_all_skip (env : Env) (tx : Transaction) :
    ∀ l : List Observer,
      (∀ p ∈ l, p.shardId ≠ metachainShardId ∧ costSkip env tx p) →
      txCostLoop env tx l = ⟨"", some ProxyError.sendingRequest, l⟩
  | [], _ => rfl
  | o :: l, h => by
    rw [txCostLoop_cons_skip env tx o l
        (h o (List.mem_cons_self o l)).1 (h o (List.mem_cons_self o l)).2,
      txCostLoop_all_skip env tx l (fun p hp => h p (List.mem_cons_of_mem o hp))]

theorem mem_nonMetaObservers (env : Env) (o : Observer) (h : o ∈ nonMetaObservers env) :
    o.shardId ≠ metachainShardId := by
  unfold nonMetaObservers at h
  have := (List.mem_filter.mp h).2
  simpa using this

/-- C7: when the fields validate, `TransactionCostRequest` never POSTs to a
metachain observer, and over the remaining observers (in inventory order)
it applies the three-outcome pattern on `/transaction/cost`: the first
200-with-nil-error returns the decimal cost, 404/408 skips, any other
outcome returns the call's error immediately, and exhaustion returns
`ErrSendingRequest`. -/
theorem transactionCostRequest_skips_metachain (env : Env) (tx : Transaction)
    (hv : checkTransactionFields env tx = none) :
    (∀ p ∈ (TransactionCostRequest env tx).visited, p.shardId ≠ metachainShardId) ∧
    (∀ pre o post, nonMetaObservers env = pre ++ o :: post →
      (∀ p ∈ pre, costSkip env tx p) → costOk env tx o →
      TransactionCostRequest env tx =
        ⟨Nat.repr (env.callPostCost o.address tx).resp.txCost, none, pre ++ [o]⟩) ∧
    (∀ pre o post, nonMetaObservers env = pre ++ o :: post →
      (∀ p ∈ pre, costSkip env tx p) → ¬ costOk env tx o →
      ¬ ((env.callPostCost o.address tx).code = 404 ∨
        (env.callPostCost o.address tx).code = 408) →
      TransactionCostRequest env tx =
        ⟨"", ((env.callPostCost o.address tx).err).map ProxyError.callError, pre ++ [o]⟩) ∧
    ((∀ p ∈ nonMetaObservers env, costSkip env tx p) →
      TransactionCostRequest env tx =
        ⟨"", some ProxyError.sendingRequest, nonMetaObservers env⟩) := by
  have hred : TransactionCostRequest env tx = txCostLoop env tx env.getAllObservers := by
    unfold TransactionCostRequest
    rw [hv]
  have hfil : TransactionCostRequest env tx = txCostLoop env tx (nonMetaObservers env) := by
    rw [hred, txCostLoop_filter_meta env tx env.getAllObservers]
    rfl
  refine ⟨?_, ?_, ?_, ?_⟩
  · intro p hp
    rw [hred] at hp
    exact txCostLoop_visited_nonmeta env tx env.getAllObservers p hp
  · intro pre o post hsplit hpre hok
    have hm : o.shardId ≠ metachainShardId :=
      mem_nonMetaObservers env o (by rw [hsplit]; exact List.mem_append_right pre (List.mem_cons_self o post))
    rw [hfil, hsplit]
    exact txCostLoop_first_ok env tx o post hm hok pre
      (fun p hp => ⟨mem_nonMetaObservers env p (by rw [hsplit]; exact List.mem_append_left _ hp),
        hpre p hp⟩)
  · intro pre o post hsplit hpre h1 h2
    have hm : o.shardId ≠ metachainShardId :=
      mem_nonMetaObservers env o (by rw [hsplit]; exact List.mem_append_right pre (List.mem_cons_self o post))
    rw [hfil, hsplit]
    exact txCostLoop_first_fatal env tx o post hm h1 h2 pre
      (fun p hp => ⟨mem_nonMetaObservers env p (by rw [hsplit]; exact List.mem_append_left _ hp),
        hpre p hp⟩)
  · intro hall
    rw [hfil]
    exact txCostLoop_all_skip env tx (nonMetaObservers env)
      (fun p hp => ⟨mem_nonMetaObservers env p hp, hall p hp⟩)

theorem transactionCostRequest_skips_metachain_witness :
    TransactionCostRequest envC7 txC3 = ⟨"57", none, [⟨"o1", 0⟩, ⟨"o2", 1⟩]⟩ ∧
    TransactionCostRequest envC7b txC3 =
      ⟨"", some ProxyError.sendingRequest, [⟨"o1", 0⟩]⟩ ∧
    (∀ p ∈ (TransactionCostRequest envC7 txC3).visited, p.shardId ≠ metachainShardId) := by
  refine ⟨?_, ?_, ?_⟩
  · exact ((transactionCostRequest_skips_metachain envC7 txC3 (by decide)).2.1
      [⟨"o1", 0⟩] ⟨"o2", 1⟩ [] (by decide) (by decide) (by decide)).trans (by decide)
  · exact ((transactionCostRequest_skips_metachain envC7b txC3 (by decide)).2.2.2
      (by decide)).trans (by decide)
  · exact (transactionCostRequest_skips_metachain envC7 txC3 (by decide)).1

theorem destShardLoop_cons_miss (env : Env) (txHash : String) (o : Observer)
    (l : List Observer) (h : ¬ txHit env txHash o) :
    destShardLoop env txHash (o :: l) = destShardLoop env txHash l := by
  simp only [destShardLoop]
  by_cases h1 : (env.callGetTx o.address (TransactionPath ++ txHash)).err = none
  · have h2 : (env.callGetTx o.address (TransactionPath ++ txHash)).code ≠ 200 :=
      fun hc => h ⟨h1, hc⟩
    rw [if_neg (by simp [h1]), if_pos h2]
  · rw [if_pos (by simp [Option.isSome_iff_ne_none, h1])]

theorem destShardLoop_cons_hit (env : Env) (txHash : String) (o : Observer)
    (l : List Observer) (h : txHit env txHash o) :
    destShardLoop env txHash (o :: l) =
      some (env.callGetTx o.address (TransactionPath ++ txHash)).resp.transaction.status := by
  simp only [destShardLoop]
  rw [if_neg (by simp [h.1]), if_neg (by simp [h.2])]

theorem destShardLoop_first (env : Env) (txHash : String) (d : Observer)
    (dpost : List Observer) (hhit : txHit env txHash d) :
    ∀ dpre : List Observer, (∀ p ∈ dpre, ¬ txHit env txHash p) →
      destShardLoop env txHash (dpre ++ d :: dpost) =
        some (env.callGetTx d.address (TransactionPath ++ txHash)).resp.transaction.status
  | [], _ => destShardLoop_cons_hit env txHash d dpost hhit
  | p :: dpre, h => by
    rw [List.cons_append,
      destShardLoop_cons_miss env txHash p (dpre ++ d :: dpost) (h p (List.mem_cons_self p dpre))]
    exact destShardLoop_first env txHash d dpost hhit dpre
      (fun q hq => h q (List.mem_cons_of_mem p hq))

theorem destShardLoop_all_miss (env : Env) (txHash : String) :
    ∀ l : List Observer, (∀ p ∈ l, ¬ txHit env txHash p) →
      destShardLoop env txHash l = none
  | [], _ => rfl
  | o :: l, h => by
    rw [destShardLoop_cons_miss env txHash o l (h o (List.mem_cons_self o l))]
    exact destShardLoop_all_miss env txHash l (fun p hp => h p (List.mem_cons_of_mem o hp))

theorem getTxStatusFromDestShard_error (env : Env) (txHash : String) (s : Nat)
    (m : String) (h : env.getObservers s = Except.error m) :
    getTxStatusFromDestShard env txHash s = none := by
  unfold getTxStatusFromDestShard
  rw [h]

theorem getTxStatusFromDestShard_first (env : Env) (txHash : String) (s : Nat)
    (dObs dpre dpost : List Observer) (d : Observer)
    (h : env.getObservers s = Except.ok dObs) (hsplit : dObs = dpre ++ d :: dpost)
    (hpre : ∀ p ∈ dpre, ¬ txHit env txHash p) (hhit : txHit env txHash d) :
    getTxStatusFromDestShard env txHash s =
      some (env.callGetTx d.address (TransactionPath ++ txHash)).resp.transaction.status := by
  unfold getTxStatusFromDestShard
  rw [h]
  dsimp only
  rw [hsplit]
  exact destShardLoop_first env txHash d dpost hhit dpre hpre

theorem getTxStatusFromDestShard_none (env : Env) (txHash : String) (s : Nat)
    (dObs : List Observer) (h : env.getObservers s = Except.ok dObs)
    (hall : ∀ p ∈ dObs, ¬ txHit env txHash p) :
    getTxStatusFromDestShard env txHash s = none := by
  unfold getTxStatusFromDestShard
  rw [h]
  dsimp only
  exact destShardLoop_all_miss env txHash dObs hall

theorem getTxStatusLoop_skip_prefix (env : Env) (txHash : String) :
    ∀ (pre l : List Observer), (∀ p ∈ pre, ¬ txHit env txHash p) →
      getTxStatusLoop env txHash (pre ++ l) = getTxStatusLoop env txHash l
  | [], _, _ => rfl
  | p :: pre, l, h => by
    rw [List.cons_append,
      getTxStatusLoop_cons_miss env txHash p (pre ++ l) (h p (List.mem_cons_self p pre))]
    exact getTxStatusLoop_skip_prefix env txHash pre l
      (fun q hq => h q (List.mem_cons_of_mem p hq))

theorem getTxStatusWithSenderLoop_skip_prefix (env : Env) (txHash : String) (s : Nat) :
    ∀ (pre l : List Observer), (∀ p ∈ pre, ¬ txHit env txHash p) →
      getTxStatusWithSenderLoop env txHash s (pre ++ l) =
        getTxStatusWithSenderLoop env txHash s l
  | [], _, _ => rfl
  | p :: pre, l, h => by
    rw [List.cons_append,
      getTxStatusWithSenderLoop_cons_miss env txHash s p (pre ++ l)
        (h p (List.mem_cons_self p pre))]
    exact getTxStatusWithSenderLoop_skip_prefix env txHash s pre l
      (fun q hq => h q (List.mem_cons_of_mem p hq))

theorem getTxStatusLoop_cons_hit_cross (env : Env) (txHash : String) (o : Observer)
    (l : List Observer) (resp : GetTransactionResponse)
    (hhit : getTxFromObserver env o txHash = some resp)
    (hcross : getShardByAddressVal env resp.transaction.sender ≠
      getShardByAddressVal env resp.transaction.receiver)
    (hnotdest : getShardByAddressVal env resp.transaction.receiver ≠ o.shardId) :
    getTxStatusLoop env txHash (o :: l) =
      match getTxStatusFromDestShard env txHash
          (getShardByAddressVal env resp.transaction.receiver) with
      | some dstTxStatus => (dstTxStatus, none)
      | none => (resp.transaction.status, none) := by
  simp only [getTxStatusLoop]
  rw [hhit]
  dsimp only
  rw [if_neg (by simp [hcross, hnotdest])]

theorem getTxStatusWithSenderLoop_cons_hit_cross (env : Env) (txHash : String)
    (sndShardID : Nat) (o : Observer) (l : List Observer) (resp : GetTransactionResponse)
    (hhit : getTxFromObserver env o txHash = some resp)
    (hcross : getShardByAddressVal env resp.transaction.receiver ≠ sndShardID) :
    getTxStatusWithSenderLoop env txHash sndShardID (o :: l) =
      match getTxStatusFromDestShard env txHash
          (getShardByAddressVal env resp.transaction.receiver) with
      | some dstTxStatus => (dstTxStatus, none)
      | none => (resp.transaction.status, none) := by
  simp only [getTxStatusWithSenderLoop]
  rw [hhit]
  dsimp only
  rw [if_neg (by simp [hcross])]

/-- C1: on a cross-shard transaction whose first hit comes from a
source-shard observer, `GetTransactionStatus` attempts the
destination-shard override — iterating the receiver shard's observers and
returning the first status obtained with code 200 and a nil error — and
falls back to the source-shard status with a nil error when the receiver
shard's observers are unavailable or all skip.  Stated for both the
no-sender-hint path (candidates `GetAllObservers()`) and the sender-hint
path (candidates are the sender shard's observers). -/
theorem getTransactionStatus_cross_shard_dest_override (env : Env) (txHash : String) :
    (∀ pre o post resp,
      env.getAllObservers = pre ++ o :: post →
      (∀ p ∈ pre, ¬ txHit env txHash p) →
      getTxFromObserver env o txHash = some resp →
      o.shardId = getShardByAddressVal env resp.transaction.sender →
      getShardByAddressVal env resp.transaction.sender ≠
        getShardByAddressVal env resp.transaction.receiver →
      ((∀ m, env.getObservers (getShardByAddressVal env resp.transaction.receiver) =
          Except.error m →
        GetTransactionStatus env txHash "" = (resp.transaction.status, none)) ∧
       (∀ dObs, env.getObservers (getShardByAddressVal env resp.transaction.receiver) =
          Except.ok dObs →
        (∀ dpre d dpost, dObs = dpre ++ d :: dpost →
          (∀ p ∈ dpre, ¬ txHit env txHash p) → txHit env txHash d →
          GetTransactionStatus env txHash "" =
            ((env.callGetTx d.address (TransactionPath ++ txHash)).resp.transaction.status,
              none)) ∧
        ((∀ d ∈ dObs, ¬ txHit env txHash d) →
          GetTransactionStatus env txHash "" = (resp.transaction.status, none))))) ∧
    (∀ sender sndShardID obs pre o post resp, sender ≠ "" →
      getShardByAddress env sender = Except.ok sndShardID →
      env.getObservers sndShardID = Except.ok obs →
      obs = pre ++ o :: post →
      (∀ p ∈ pre, ¬ txHit env txHash p) →
      getTxFromObserver env o txHash = some resp →
      getShardByAddressVal env resp.transaction.receiver ≠ sndShardID →
      ((∀ m, env.getObservers (getShardByAddressVal env resp.transaction.receiver) =
          Except.error m →
        GetTransactionStatus env txHash sender = (resp.transaction.status, none)) ∧
       (∀ dObs, env.getObservers (getShardByAddressVal env resp.transaction.receiver) =
          Except.ok dObs →
        (∀ dpre d dpost, dObs = dpre ++ d :: dpost →
          (∀ p ∈ dpre, ¬ txHit env txHash p) → txHit env txHash d →
          GetTransactionStatus env txHash sender =
            ((env.callGetTx d.address (TransactionPath ++ txHash)).resp.transaction.status,
              none)) ∧
        ((∀ d ∈ dObs, ¬ txHit env txHash d) →
          GetTransactionStatus env txHash sender = (resp.transaction.status, none))))) := by
  constructor
  · intro pre o post resp hsplit hpre hhit hsrc hcross
    have hnotdest : getShardByAddressVal env resp.transaction.receiver ≠ o.shardId :=
      fun h => hcross (hsrc.symm.trans h.symm)
    have hred : GetTransactionStatus env txHash "" =
        match getTxStatusFromDestShard env txHash
            (getShardByAddressVal env resp.transaction.receiver) with
        | some dstTxStatus => (dstTxStatus, none)
        | none => (resp.transaction.status, none) := by
      unfold GetTransactionStatus
      rw [if_neg (by simp), hsplit, getTxStatusLoop_skip_prefix env txHash pre _ hpre,
        getTxStatusLoop_cons_hit_cross env txHash o post resp hhit hcross hnotdest]
    constructor
    · intro m hm
      rw [hred, getTxStatusFromDestShard_error env txHash _ m hm]
    · intro dObs hdObs
      constructor
      · intro dpre d dpost hdsplit hdpre hdhit
        rw [hred, getTxStatusFromDestShard_first env txHash _ dObs dpre dpost d hdObs
          hdsplit hdpre hdhit]
      · intro hdall
        rw [hred, getTxStatusFromDestShard_none env txHash _ dObs hdObs hdall]
  · intro sender sndShardID obs pre o post resp hs hshard hobs hsplit hpre hhit hcross
    have hred : GetTransactionStatus env txHash sender =
        match getTxStatusFromDestShard env txHash
            (getShardByAddressVal env resp.transaction.receiver) with
        | some dstTxStatus => (dstTxStatus, none)
        | none => (resp.transaction.status, none) := by
      unfold GetTransactionStatus
      rw [if_pos hs]
      unfold getTxStatusWithSenderAddr
      rw [hshard]
      dsimp only
      rw [hobs]
      dsimp only
      rw [hsplit, getTxStatusWithSenderLoop_skip_prefix env txHash sndShardID pre _ hpre,
        getTxStatusWithSenderLoop_cons_hit_cross env txHash sndShardID o post resp hhit hcross]
    constructor
    · intro m hm
      rw [hred, getTxStatusFromDestShard_error env txHash _ m hm]
    · intro dObs hdObs
      constructor
      · intro dpre d dpost hdsplit hdpre hdhit
        rw [hred, getTxStatusFromDestShard_first env txHash _ dObs dpre dpost d hdObs
          hdsplit hdpre hdhit]
      · intro hdall
        rw [hred, getTxStatusFromDestShard_none env txHash _ dObs hdObs hdall]

theorem getTransactionStatus_cross_shard_dest_override_witness :
    GetTransactionStatus envC1 "h" "" = ("success", none) ∧
    GetTransactionStatus envC1b "h" "" = ("pending", none) ∧
    GetTransactionStatus envC1 "h" "s" = ("success", none) := by
  refine ⟨?_, ?_, ?_⟩
  · exact (((getTransactionStatus_cross_shard_dest_override envC1 "h").1
        [] ⟨"A0", 0⟩ [] ⟨⟨"s", "r", "pending"⟩⟩ rfl (by decide) (by decide)
        (by decide) (by decide)).2 [⟨"X1", 1⟩] (by decide)).1
      [] ⟨"X1", 1⟩ [] (by decide) (by decide) (by decide)
  · exact (((getTransactionStatus_cross_shard_dest_override envC1b "h").1
        [] ⟨"A0", 0⟩ [] ⟨⟨"s", "r", "pending"⟩⟩ rfl (by decide) (by decide)
        (by decide) (by decide)).2 [⟨"X1", 1⟩] (by decide)).2
      (by decide)
  · exact (((getTransactionStatus_cross_shard_dest_override envC1 "h").2
        "s" 0 [⟨"A0", 0⟩] [] ⟨"A0", 0⟩ [] ⟨⟨"s", "r", "pending"⟩⟩ (by decide)
        (by rfl) (by rfl) rfl (by decide) (by decide) (by decide)).2
      [⟨"X1", 1⟩] (by decide)).1 [] ⟨"X1", 1⟩ [] (by decide) (by decide) (by decide)

/-- C5 (counterexample): with input [invalid, valid], the valid
transaction (original position 1) is stamped with `Index = 0` — its
position in the filtered valid slice — and the returned hash map binds key
0, not the original position 1, which gets no entry. -/
theorem sendMultiple_original_index_cex :
    (SendMultipleTransactions envC5 [txC5bad, txC5good]).txsHashes = [(0, "Hb")] ∧
    assocLookup (SendMultipleTransactions envC5 [txC5bad, txC5good]).txsHashes 1 = none ∧
    (SendMultipleTransactions envC5 [txC5bad, txC5good]).finalTxs.map Transaction.index =
      [0, 0] := by
  decide

/-- C6 (counterexample): a valid caller transaction with `Index = 7` is
mutated in place during grouping — after the call the caller-visible slice
differs from the input. -/
theorem sendMultiple_mutates_caller_cex :
    (SendMultipleTransactions envC6 [txC6]).finalTxs ≠ [txC6] ∧
    (SendMultipleTransactions envC6 [txC6]).finalTxs = [{ txC6 with index := 0 }] := by
  decide

theorem groupsLookup_insert_same (m : List (Nat × List Transaction)) (s : Nat)
    (tx : Transaction) :
    groupsLookup (shardGroupsInsert m s tx) s = groupsLookup m s ++ [tx] := by
  induction m with
  | nil => simp [shardGroupsInsert, groupsLookup]
  | cons hd rest ih =>
    obtain ⟨s0, g⟩ := hd
    by_cases h : s0 = s
    · subst h
      simp [shardGroupsInsert, groupsLookup]
    · simp [shardGroupsInsert, groupsLookup, h, ih]

theorem groupsLookup_insert_other (m : List (Nat × List Transaction)) (s s' : Nat)
    (tx : Transaction) (h : s' ≠ s) :
    groupsLookup (shardGroupsInsert m s tx) s' = groupsLookup m s' := by
  induction m with
  | nil =>
    simp only [shardGroupsInsert, groupsLookup]
    rw [if_neg (by simpa using Ne.symm h)]
  | cons hd rest ih =>
    obtain ⟨s0, g⟩ := hd
    simp only [shardGroupsInsert]
    by_cases h0 : s0 = s
    · rw [if_pos (by simpa using h0)]
      subst h0
      simp only [groupsLookup]
      rw [if_neg (by simpa using Ne.symm h), if_neg (by simpa using Ne.symm h)]
    · rw [if_neg (by simpa using h0)]
      simp only [groupsLookup]
      by_cases h1 : s0 = s'
      · rw [if_pos (by simpa using h1), if_pos (by simpa using h1)]
      · rw [if_neg (by simpa using h1), if_neg (by simpa using h1), ih]

theorem shardGroupsInsert_keys (m : List (Nat × List Transaction)) (s : Nat)
    (tx : Transaction) :
    (shardGroupsInsert m s tx).map Prod.fst = m.map Prod.fst ∨
      ((shardGroupsInsert m s tx).map Prod.fst = m.map Prod.fst ++ [s] ∧
        s ∉ m.map Prod.fst) := by
  induction m with
  | nil => right; simp [shardGroupsInsert]
  | cons hd rest ih =>
    obtain ⟨s0, g⟩ := hd
    by_cases h : s0 = s
    · subst h
      left
      simp [shardGroupsInsert]
    · rcases ih with ih | ⟨ih1, ih2⟩
      · left
        simp [shardGroupsInsert, h, ih]
      · right
        constructor
        · simp [shardGroupsInsert, h, ih1]
        · simp only [List.map_cons, List.mem_cons]
          rintro (hc | hc)
          · exact h hc.symm
          · exact ih2 hc

theorem shardGroupsInsert_keys_nodup (m : List (Nat × List Transaction)) (s : Nat)
    (tx : Transaction) (h : (m.map Prod.fst).Nodup) :
    ((shardGroupsInsert m s tx).map Prod.fst).Nodup := by
  rcases shardGroupsInsert_keys m s tx with hk | ⟨hk, hs⟩
  · rw [hk]; exact h
  · rw [hk]
    exact List.Nodup.append h (List.nodup_singleton s) (by simpa using hs)

theorem groupsLookup_of_mem (m : List (Nat × List Transaction)) (s : Nat)
    (g : List Transaction) (hnd : (m.map Prod.fst).Nodup) (hm : (s, g) ∈ m) :
    groupsLookup m s = g := by
  induction m with
  | nil => cases hm
  | cons hd rest ih =>
    obtain ⟨s0, g0⟩ := hd
    rcases List.mem_cons.mp hm with heq | hmem
    · cases heq
      simp [groupsLookup]
    · have hs0 : s0 ≠ s := by
        intro h0
        subst h0
        have : s0 ∈ rest.map Prod.fst := by
          exact List.mem_map.mpr ⟨(s0, g), hmem, rfl⟩
        exact (List.nodup_cons.mp hnd).1 this
      simp only [groupsLookup]
      rw [if_neg (by simpa using hs0)]
      exact ih (List.nodup_cons.mp hnd).2 hmem

theorem groupsLookup_ne_nil_mem (s : Nat) :
    ∀ m : List (Nat × List Transaction), groupsLookup m s ≠ [] →
      (s, groupsLookup m s) ∈ m
  | [], h => absurd rfl h
  | (s0, g0) :: rest, h => by
    by_cases h0 : s0 = s
    · subst h0
      simp [groupsLookup]
    · simp only [groupsLookup] at h ⊢
      rw [if_neg (by simpa using h0)] at h ⊢
      exact List.mem_cons_of_mem _ (groupsLookup_ne_nil_mem s rest h)

theorem groupTxsByShardAux_fst_lookup (env : Env) :
    ∀ (txs : List Transaction) (idx : Nat) (m : List (Nat × List Transaction)) (s : Nat),
      groupsLookup (groupTxsByShardAux env txs idx m).1 s =
        groupsLookup m s ++ groupedFrom env txs idx s
  | [], idx, m, s => by
    simp [groupTxsByShardAux, groupedFrom]
  | tx :: rest, idx, m, s => by
    cases hd : env.decode tx.sender with
    | error e =>
      have hsh : shardOfTx env tx = none := by simp [shardOfTx, hd]
      simp only [groupTxsByShardAux, groupedFrom, hd, hsh]
      exact groupTxsByShardAux_fst_lookup env rest (idx + 1) m s
    | ok b =>
      cases hc : env.computeShardId b with
      | error e =>
        have hsh : shardOfTx env tx = none := by simp [shardOfTx, hd, hc]
        simp only [groupTxsByShardAux, groupedFrom, hd, hc, hsh]
        exact groupTxsByShardAux_fst_lookup env rest (idx + 1) m s
      | ok s0 =>
        have hsh : shardOfTx env tx = some s0 := by simp [shardOfTx, hd, hc]
        simp only [groupTxsByShardAux, groupedFrom, hd, hc, hsh]
        by_cases h0 : s0 = s
        · rw [h0]
          rw [if_pos (by simp)]
          rw [groupTxsByShardAux_fst_lookup env rest (idx + 1) _ s,
            groupsLookup_insert_same]
          simp
        · rw [if_neg (by simpa using h0)]
          rw [groupTxsByShardAux_fst_lookup env rest (idx + 1) _ s,
            groupsLookup_insert_other m s0 s _ (Ne.symm h0)]

theorem groupTxsByShardAux_keys_nodup (env : Env) :
    ∀ (txs : List Transaction) (idx : Nat) (m : List (Nat × List Transaction)),
      (m.map Prod.fst).Nodup →
      (((groupTxsByShardAux env txs idx m).1).map Prod.fst).Nodup
  | [], _, m, h => by simpa [groupTxsByShardAux] using h
  | tx :: rest, idx, m, h => by
    cases hd : env.decode tx.sender with
    | error e =>
      simp only [groupTxsByShardAux, hd]
      exact groupTxsByShardAux_keys_nodup env rest (idx + 1) m h
    | ok b =>
      cases hc : env.computeShardId b with
      | error e =>
        simp only [groupTxsByShardAux, hd, hc]
        exact groupTxsByShardAux_keys_nodup env rest (idx + 1) m h
      | ok s0 =>
        simp only [groupTxsByShardAux, hd, hc]
        exact groupTxsByShardAux_keys_nodup env rest (idx + 1) _
          (shardGroupsInsert_keys_nodup m s0 _ h)

theorem groupedFrom_cons_none (env : Env) (tx : Transaction) (rest : List Transaction)
    (idx s : Nat) (h : shardOfTx env tx = none) :
    groupedFrom env (tx :: rest) idx s = groupedFrom env rest (idx + 1) s := by
  simp only [groupedFrom, h]

theorem groupedFrom_cons_some_eq (env : Env) (tx : Transaction) (rest : List Transaction)
    (idx s : Nat) (h : shardOfTx env tx = some s) :
    groupedFrom env (tx :: rest) idx s =
      { tx with index := idx } :: groupedFrom env rest (idx + 1) s := by
  simp only [groupedFrom, h]
  rw [if_pos (by simp)]

theorem groupedFrom_cons_some_ne (env : Env) (tx : Transaction) (rest : List Transaction)
    (idx s s0 : Nat) (h : shardOfTx env tx = some s0) (hne : s0 ≠ s) :
    groupedFrom env (tx :: rest) idx s = groupedFrom env rest (idx + 1) s := by
  simp only [groupedFrom, h]
  rw [if_neg (by simpa using hne)]

theorem groupedFrom_index_ge (env : Env) :
    ∀ (txs : List Transaction) (idx s : Nat), ∀ tx' ∈ groupedFrom env txs idx s,
      idx ≤ tx'.index
  | [], idx, s => by
    intro tx' h
    simp [groupedFrom] at h
  | tx :: rest, idx, s => by
    intro tx' h
    cases hsh : shardOfTx env tx with
    | none =>
      rw [groupedFrom_cons_none env tx rest idx s hsh] at h
      have := groupedFrom_index_ge env rest (idx + 1) s tx' h
      omega
    | some s0 =>
      by_cases h0 : s0 = s
      · subst h0
        rw [groupedFrom_cons_some_eq env tx rest idx s0 hsh] at h
        rcases List.mem_cons.mp h with heq | h'
        · have : tx'.index = idx := by rw [heq]
          omega
        · have := groupedFrom_index_ge env rest (idx + 1) s0 tx' h'
          omega
      · rw [groupedFrom_cons_some_ne env tx rest idx s s0 hsh h0] at h
        have := groupedFrom_index_ge env rest (idx + 1) s tx' h
        omega

theorem groupedFrom_pairwise (env : Env) :
    ∀ (txs : List Transaction) (idx s : Nat),
      (groupedFrom env txs idx s).Pairwise (fun a b => a.index < b.index)
  | [], _, _ => by simp [groupedFrom]
  | tx :: rest, idx, s => by
    cases hsh : shardOfTx env tx with
    | none =>
      rw [groupedFrom_cons_none env tx rest idx s hsh]
      exact groupedFrom_pairwise env rest (idx + 1) s
    | some s0 =>
      by_cases h0 : s0 = s
      · subst h0
        rw [groupedFrom_cons_some_eq env tx rest idx s0 hsh]
        refine List.Pairwise.cons ?_ (groupedFrom_pairwise env rest (idx + 1) s0)
        intro b hb
        have := groupedFrom_index_ge env rest (idx + 1) s0 b hb
        show idx < b.index
        omega
      · rw [groupedFrom_cons_some_ne env tx rest idx s s0 hsh h0]
        exact groupedFrom_pairwise env rest (idx + 1) s

theorem mem_groupedFrom (env : Env) :
    ∀ (txs : List Transaction) (idx s : Nat) (tx' : Transaction),
      tx' ∈ groupedFrom env txs idx s ↔
        ∃ j tx, txs.get? j = some tx ∧ shardOfTx env tx = some s ∧
          tx' = { tx with index := idx + j }
  | [], idx, s, tx' => by simp [groupedFrom]
  | tx :: rest, idx, s, tx' => by
    constructor
    · intro h
      cases hsh : shardOfTx env tx with
      | none =>
        rw [groupedFrom_cons_none env tx rest idx s hsh] at h
        obtain ⟨j, tx0, hj, hs0, he⟩ :=
          (mem_groupedFrom env rest (idx + 1) s tx').mp h
        refine ⟨j + 1, tx0, by simpa using hj, hs0, ?_⟩
        have harith : idx + 1 + j = idx + (j + 1) := by omega
        rw [harith] at he
        exact he
      | some s0 =>
        by_cases h0 : s0 = s
        · subst h0
          rw [groupedFrom_cons_some_eq env tx rest idx s0 hsh] at h
          rcases List.mem_cons.mp h with heq | h'
          · exact ⟨0, tx, by simp, hsh, by simpa using heq⟩
          · obtain ⟨j, tx0, hj, hs0, he⟩ :=
              (mem_groupedFrom env rest (idx + 1) s0 tx').mp h'
            refine ⟨j + 1, tx0, by simpa using hj, hs0, ?_⟩
            have harith : idx + 1 + j = idx + (j + 1) := by omega
            rw [harith] at he
            exact he
        · rw [groupedFrom_cons_some_ne env tx rest idx s s0 hsh h0] at h
          obtain ⟨j, tx0, hj, hs0, he⟩ :=
            (mem_groupedFrom env rest (idx + 1) s tx').mp h
          refine ⟨j + 1, tx0, by simpa using hj, hs0, ?_⟩
          have harith : idx + 1 + j = idx + (j + 1) := by omega
          rw [harith] at he
          exact he
    · rintro ⟨j, tx0, hj, hs0, he⟩
      cases j with
      | zero =>
        have htx : tx = tx0 := by simpa using hj
        subst htx
        rw [groupedFrom_cons_some_eq env tx rest idx s hs0]
        have he' : tx' = { tx with index := idx } := by simpa using he
        rw [he']
        exact List.mem_cons_self _ _
      | succ j' =>
        have hj' : rest.get? j' = some tx0 := by simpa using hj
        have harith : idx + (j' + 1) = idx + 1 + j' := by omega
        rw [harith] at he
        have hmem : tx' ∈ groupedFrom env rest (idx + 1) s :=
          (mem_groupedFrom env rest (idx + 1) s tx').mpr ⟨j', tx0, hj', hs0, he⟩
        cases hsh : shardOfTx env tx with
        | none =>
          rw [groupedFrom_cons_none env tx rest idx s hsh]
          exact hmem
        | some s0 =>
          by_cases h0 : s0 = s
          · subst h0
            rw [groupedFrom_cons_some_eq env tx rest idx s0 hsh]
            exact List.mem_cons_of_mem _ hmem
          · rw [groupedFrom_cons_some_ne env tx rest idx s s0 hsh h0]
            exact hmem

theorem groupedFrom_index_unique (env : Env) (txs : List Transaction) (s s' : Nat)
    (tx' tx'' : Transaction) (h1 : tx' ∈ groupedFrom env txs 0 s)
    (h2 : tx'' ∈ groupedFrom env txs 0 s') (h3 : tx'.index = tx''.index) :
    s = s' ∧ tx' = tx'' := by
  obtain ⟨j, tx0, hj, hs0, he⟩ := (mem_groupedFrom env txs 0 s tx').mp h1
  obtain ⟨j2, tx02, hj2, hs02, he2⟩ := (mem_groupedFrom env txs 0 s' tx'').mp h2
  have hi1 : tx'.index = j := by rw [he]; simp
  have hi2 : tx''.index = j2 := by rw [he2]; simp
  have hjj : j = j2 := by omega
  subst hjj
  rw [hj] at hj2
  cases hj2
  rw [hs0] at hs02
  cases hs02
  refine ⟨rfl, ?_⟩
  rw [he, he2]

theorem assocLookup_insert (m : List (Nat × String)) (k : Nat) (v : String) (n : Nat) :
    assocLookup (assocInsert m k v) n = if k = n then some v else assocLookup m n := by
  induction m with
  | nil =>
    simp only [assocInsert, assocLookup]
    by_cases h : k = n
    · rw [if_pos (by simpa using h), if_pos h]
    · rw [if_neg (by simpa using h), if_neg h]
  | cons hd rest ih =>
    obtain ⟨k0, v0⟩ := hd
    simp only [assocInsert]
    by_cases h0 : k0 = k
    · subst h0
      rw [if_pos (by simp)]
      simp only [assocLookup]
      by_cases h : k0 = n
      · rw [if_pos (by simpa using h), if_pos h]
      · rw [if_neg (by simpa using h), if_neg h, if_neg (by simpa using h)]
    · rw [if_neg (by simpa using h0)]
      simp only [assocLookup]
      by_cases h : k0 = n
      · subst h
        rw [if_pos (by simp), if_neg (fun hc => h0 hc.symm), if_pos (by simp)]
      · rw [if_neg (by simpa using h), ih]
        by_cases hkn : k = n
        · rw [if_pos hkn, if_pos hkn]
        · rw [if_neg hkn, if_neg hkn, if_neg (by simpa using h)]

theorem mergeHashes_preserve (g : List Transaction) :
    ∀ (pairs acc : List (Nat × String)) (n : Nat),
      (∀ kh ∈ pairs, ∀ tx', g.get? kh.1 = some tx' → tx'.index ≠ n) →
      assocLookup (mergeHashes g pairs acc) n = assocLookup acc n
  | [], _, _, _ => rfl
  | (key, hash) :: rest, acc, n, h => by
    simp only [mergeHashes]
    cases hk : g.get? key with
    | none =>
      exact mergeHashes_preserve g rest acc n
        (fun kh hkh => h kh (List.mem_cons_of_mem _ hkh))
    | some tx =>
      rw [mergeHashes_preserve g rest _ n
        (fun kh hkh => h kh (List.mem_cons_of_mem _ hkh))]
      rw [assocLookup_insert]
      rw [if_neg (h (key, hash) (List.mem_cons_self _ _) tx hk)]

theorem get_index_inj (g : List Transaction)
    (hg : g.Pairwise (fun a b => a.index < b.index)) (k k' : Nat)
    (tx tx' : Transaction) (hk : g.get? k = some tx) (hk' : g.get? k' = some tx')
    (hne : k ≠ k') : tx.index ≠ tx'.index := by
  obtain ⟨hkl, hget⟩ := List.get?_eq_some.mp hk
  obtain ⟨hkl', hget'⟩ := List.get?_eq_some.mp hk'
  rcases Nat.lt_or_ge k k' with hlt | hge
  · have := List.pairwise_iff_get.mp hg ⟨k, hkl⟩ ⟨k', hkl'⟩ hlt
    rw [hget, hget'] at this
    omega
  · have hlt' : k' < k := by omega
    have := List.pairwise_iff_get.mp hg ⟨k', hkl'⟩ ⟨k, hkl⟩ hlt'
    rw [hget, hget'] at this
    omega

theorem mergeHashes_write (g : List Transaction)
    (hg : g.Pairwise (fun a b => a.index < b.index)) :
    ∀ (pairs acc : List (Nat × String)) (k : Nat) (h : String) (tx : Transaction),
      (pairs.map Prod.fst).Nodup →
      g.get? k = some tx → (k, h) ∈ pairs →
      assocLookup (mergeHashes g pairs acc) tx.index = some h
  | [], _, _, _, _, _, _, hmem => absurd hmem (List.not_mem_nil _)
  | (k0, h0) :: rest, acc, k, h, tx, hnd, hk, hmem => by
    rcases List.mem_cons.mp hmem with heq | hmem'
    · injection heq with heq1 heq2
      subst heq1
      subst heq2
      simp only [mergeHashes]
      rw [hk]
      rw [mergeHashes_preserve g rest _ tx.index ?hpres]
      · rw [assocLookup_insert, if_pos rfl]
      case hpres =>
        intro kh hkh tx' hk'
        have hkne : kh.1 ≠ k := by
          intro hc
          have hkin : k ∈ rest.map Prod.fst := by
            rw [← hc]
            exact List.mem_map.mpr ⟨kh, hkh, rfl⟩
          exact (List.nodup_cons.mp hnd).1 hkin
        exact get_index_inj g hg kh.1 k tx' tx hk' hk hkne
    · simp only [mergeHashes]
      cases hk0g : g.get? k0 with
      | none =>
        exact mergeHashes_write g hg rest acc k h tx (List.nodup_cons.mp hnd).2 hk hmem'
      | some tx0 =>
        exact mergeHashes_write g hg rest _ k h tx (List.nodup_cons.mp hnd).2 hk hmem'

theorem processGroups_eq_ok (env : Env) :
    ∀ (gs : List (Nat × List Transaction)) (total : Nat) (hashes : List (Nat × String)),
      (∀ sg ∈ gs, ∃ obs, env.getObservers sg.1 = Except.ok obs) →
      processGroups env gs total hashes =
        Except.ok (total + (gs.map (groupContribution env)).sum,
          processGroupsHashes env gs hashes)
  | [], total, hashes, _ => by simp [processGroups, processGroupsHashes]
  | (shardID, groupOfTxs) :: rest, total, hashes, h => by
    obtain ⟨obs, hobs⟩ := h (shardID, groupOfTxs) (List.mem_cons_self _ _)
    simp only [processGroups, processGroupsHashes, hobs]
    cases hloop : sendMultiGroupLoop env groupOfTxs obs with
    | some resp =>
      dsimp only
      rw [processGroups_eq_ok env rest _ _
        (fun sg hsg => h sg (List.mem_cons_of_mem _ hsg))]
      have hc : groupContribution env (shardID, groupOfTxs) = resp.numOfTxs := by
        simp [groupContribution, hobs, hloop]
      rw [List.map_cons, List.sum_cons, hc, ← Nat.add_assoc]
    | none =>
      dsimp only
      rw [processGroups_eq_ok env rest total _
        (fun sg hsg => h sg (List.mem_cons_of_mem _ hsg))]
      have hc : groupContribution env (shardID, groupOfTxs) = 0 := by
        simp [groupContribution, hobs, hloop]
      rw [List.map_cons, List.sum_cons, hc, Nat.zero_add]

theorem processGroupsHashes_preserve (env : Env) (n : Nat) :
    ∀ (gs : List (Nat × List Transaction)) (hashes : List (Nat × String)),
      (∀ sg ∈ gs, ∀ obs resp, env.getObservers sg.1 = Except.ok obs →
        sendMultiGroupLoop env sg.2 obs = some resp →
        ∀ kh ∈ resp.txsHashes, ∀ tx', sg.2.get? kh.1 = some tx' → tx'.index ≠ n) →
      assocLookup (processGroupsHashes env gs hashes) n = assocLookup hashes n
  | [], _, _ => rfl
  | (shardID, g) :: rest, hashes, h => by
    simp only [processGroupsHashes]
    cases hobs : env.getObservers shardID with
    | error m =>
      exact processGroupsHashes_preserve env n rest hashes
        (fun sg hsg => h sg (List.mem_cons_of_mem _ hsg))
    | ok obs =>
      dsimp only
      cases hloop : sendMultiGroupLoop env g obs with
      | some resp =>
        dsimp only
        rw [processGroupsHashes_preserve env n rest _
          (fun sg hsg => h sg (List.mem_cons_of_mem _ hsg))]
        exact mergeHashes_preserve g resp.txsHashes hashes n
          (fun kh hkh tx' hk' =>
            h (shardID, g) (List.mem_cons_self _ _) obs resp hobs hloop kh hkh tx' hk')
      | none =>
        dsimp only
        exact processGroupsHashes_preserve env n rest hashes
          (fun sg hsg => h sg (List.mem_cons_of_mem _ hsg))

theorem processGroupsHashes_write (env : Env) :
    ∀ (gs : List (Nat × List Transaction)) (hashes : List (Nat × String))
      (s : Nat) (g : List Transaction) (obs : List Observer)
      (resp : ResponseMultipleTransactions) (k : Nat) (h : String) (tx : Transaction),
      (gs.map Prod.fst).Nodup →
      (s, g) ∈ gs →
      env.getObservers s = Except.ok obs →
      sendMultiGroupLoop env g obs = some resp →
      (resp.txsHashes.map Prod.fst).Nodup →
      g.Pairwise (fun a b => a.index < b.index) →
      g.get? k = some tx →
      (k, h) ∈ resp.txsHashes →
      (∀ sg ∈ gs, sg.1 ≠ s → ∀ obs' resp', env.getObservers sg.1 = Except.ok obs' →
        sendMultiGroupLoop env sg.2 obs' = some resp' →
        ∀ kh ∈ resp'.txsHashes, ∀ tx', sg.2.get? kh.1 = some tx' →
          tx'.index ≠ tx.index) →
      assocLookup (processGroupsHashes env gs hashes) tx.index = some h
  | [], _, _, _, _, _, _, _, _, _, hmem, _, _, _, _, _, _, _ =>
    absurd hmem (List.not_mem_nil _)
  | (s0, g0) :: rest, hashes, s, g, obs, resp, k, h, tx, hnd, hmem, hobs, hloop,
      hrnd, hpw, hk, hkh, hothers => by
    rcases List.mem_cons.mp hmem with heq | hmem'
    · injection heq with heq1 heq2
      subst heq1
      subst heq2
      simp only [processGroupsHashes, hobs, hloop]
      rw [processGroupsHashes_preserve env tx.index rest _ ?hpres]
      · exact mergeHashes_write g hpw resp.txsHashes hashes k h tx hrnd hk hkh
      case hpres =>
        intro sg hsg obs' resp' hobs' hloop' kh hkh' tx' hk'
        have hs : sg.1 ≠ s := by
          intro hc
          have hsin : s ∈ rest.map Prod.fst := by
            rw [← hc]
            exact List.mem_map.mpr ⟨sg, hsg, rfl⟩
          exact (List.nodup_cons.mp hnd).1 hsin
        exact hothers sg (List.mem_cons_of_mem _ hsg) hs obs' resp' hobs' hloop'
          kh hkh' tx' hk'
    · simp only [processGroupsHashes]
      cases hobs0 : env.getObservers s0 with
      | error m =>
        dsimp only
        exact processGroupsHashes_write env rest hashes s g obs resp k h tx
          (List.nodup_cons.mp hnd).2 hmem' hobs hloop hrnd hpw hk hkh
          (fun sg hsg => hothers sg (List.mem_cons_of_mem _ hsg))
      | ok obs0 =>
        dsimp only
        cases hloop0 : sendMultiGroupLoop env g0 obs0 with
        | some resp0 =>
          dsimp only
          exact processGroupsHashes_write env rest _ s g obs resp k h tx
            (List.nodup_cons.mp hnd).2 hmem' hobs hloop hrnd hpw hk hkh
            (fun sg hsg => hothers sg (List.mem_cons_of_mem _ hsg))
        | none =>
          dsimp only
          exact processGroupsHashes_write env rest hashes s g obs resp k h tx
            (List.nodup_cons.mp hnd).2 hmem' hobs hloop hrnd hpw hk hkh
            (fun sg hsg => hothers sg (List.mem_cons_of_mem _ hsg))

/-- C10: when at least one input transaction validates and `GetObservers`
succeeds for every shard group, `SendMultipleTransactions` returns a nil
error even if some (or all) groups exhaust their observers without a
successful POST; each group contributes its response's `NumOfTxs` on
success and nothing on failure, and the members of a failed group receive
no entry in `TxsHashes`. -/
theorem sendMultipleTransactions_partial_failure_nil_error (env : Env)
    (txs : List Transaction)
    (hne : txs.filter (fun tx => (checkTransactionFields env tx).isNone) ≠ [])
    (hobs : ∀ sg ∈ (groupTxsByShard env
        (txs.filter (fun tx => (checkTransactionFields env tx).isNone))).1,
      ∃ obs, env.getObservers sg.1 = Except.ok obs) :
    (SendMultipleTransactions env txs).err = none ∧
    (SendMultipleTransactions env txs).numOfTxs =
      (((groupTxsByShard env
          (txs.filter (fun tx => (checkTransactionFields env tx).isNone))).1).map
        (groupContribution env)).sum ∧
    (∀ s g, (s, g) ∈ (groupTxsByShard env
        (txs.filter (fun tx => (checkTransactionFields env tx).isNone))).1 →
      (∀ obs, env.getObservers s = Except.ok obs → sendMultiGroupLoop env g obs = none) →
      ∀ tx ∈ g,
        assocLookup (SendMultipleTransactions env txs).txsHashes tx.index = none) := by
  have hcond : ¬ ((txs.filter
      (fun tx => (checkTransactionFields env tx).isNone)).length == 0) = true := by
    simpa [List.length_eq_zero] using hne
  have hred : SendMultipleTransactions env txs =
      ⟨0 + (((groupTxsByShard env
          (txs.filter (fun tx => (checkTransactionFields env tx).isNone))).1).map
            (groupContribution env)).sum,
        processGroupsHashes env (groupTxsByShard env
          (txs.filter (fun tx => (checkTransactionFields env tx).isNone))).1 [],
        none,
        patchValid env txs (groupTxsByShard env
          (txs.filter (fun tx => (checkTransactionFields env tx).isNone))).2⟩ := by
    unfold SendMultipleTransactions
    rw [if_neg hcond]
    dsimp only
    rw [processGroups_eq_ok env _ 0 [] hobs]
  have hknd : (((groupTxsByShard env
      (txs.filter (fun tx => (checkTransactionFields env tx).isNone))).1).map
        Prod.fst).Nodup :=
    groupTxsByShardAux_keys_nodup env _ 0 [] (by simp)
  refine ⟨by rw [hred], by rw [hred]; simp, ?_⟩
  intro s g hmem hfail tx htx
  rw [hred]
  show assocLookup (processGroupsHashes env _ []) tx.index = none
  rw [processGroupsHashes_preserve env tx.index _ [] ?hpres]
  · rfl
  case hpres =>
    intro sg hsg obs resp hobs' hloop' kh hkh tx' hk'
    have hgchar : ∀ s' g', (s', g') ∈ (groupTxsByShard env
        (txs.filter (fun tx => (checkTransactionFields env tx).isNone))).1 →
        g' = groupedFrom env
          (txs.filter (fun tx => (checkTransactionFields env tx).isNone)) 0 s' := by
      intro s' g' hmem'
      have h1 := groupsLookup_of_mem _ s' g' hknd hmem'
      have h2 := groupTxsByShardAux_fst_lookup env
        (txs.filter (fun tx => (checkTransactionFields env tx).isNone)) 0 [] s'
      rw [← h1]
      simpa [groupsLookup] using h2
    by_cases hss : sg.1 = s
    · exfalso
      have hsgmem : (sg.1, sg.2) ∈ (groupTxsByShard env
          (txs.filter (fun tx => (checkTransactionFields env tx).isNone))).1 := by
        simpa using hsg
      have he1 := hgchar sg.1 sg.2 hsgmem
      have he2 := hgchar s g hmem
      have hsg2 : sg.2 = g := by rw [he1, hss, ← he2]
      rw [hsg2] at hloop'
      rw [hss] at hobs'
      rw [hfail obs hobs'] at hloop'
      cases hloop'
    · intro hie
      have hsgmem : (sg.1, sg.2) ∈ (groupTxsByShard env
          (txs.filter (fun tx => (checkTransactionFields env tx).isNone))).1 := by
        simpa using hsg
      have he1 := hgchar sg.1 sg.2 hsgmem
      have he2 := hgchar s g hmem
      have hm1 : tx' ∈ groupedFrom env
          (txs.filter (fun tx => (checkTransactionFields env tx).isNone)) 0 sg.1 := by
        rw [← he1]
        exact List.get?_mem hk'
      have hm2 : tx ∈ groupedFrom env
          (txs.filter (fun tx => (checkTransactionFields env tx).isNone)) 0 s := by
        rw [← he2]
        exact htx
      exact hss (groupedFrom_index_unique env _ sg.1 s tx' tx hm1 hm2 hie).1

theorem sendMultipleTransactions_partial_failure_nil_error_witness :
    (SendMultipleTransactions envC10 [txC10a, txC10b]).err = none ∧
    (SendMultipleTransactions envC10 [txC10a, txC10b]).numOfTxs = 1 ∧
    assocLookup (SendMultipleTransactions envC10 [txC10a, txC10b]).txsHashes 1 = none := by
  have h := sendMultipleTransactions_partial_failure_nil_error envC10 [txC10a, txC10b]
    (by decide) ?hobs
  · refine ⟨h.1, h.2.1.trans (by decide), ?_⟩
    have h3 := h.2.2 1 [{ txC10b with index := 1 }] (by decide) ?hfail
      { txC10b with index := 1 } (by decide)
    · exact h3
    case hfail =>
      intro obs hobs
      have hev : envC10.getObservers 1 = Except.ok [(⟨"o1", 1⟩ : Observer)] := by rfl
      rw [hev] at hobs
      injection hobs with hobs'
      subst hobs'
      decide
  case hobs =>
    intro sg hsg
    by_cases h0 : sg.1 = 0
    · refine ⟨[⟨"o0", 0⟩], ?_⟩
      rw [h0]
      decide
    · refine ⟨[⟨"o1", 1⟩], ?_⟩
      rw [show envC10.getObservers sg.1 =
        if sg.1 = 0 then Except.ok [(⟨"o0", 0⟩ : Observer)]
        else Except.ok [(⟨"o1", 1⟩ : Observer)] from rfl, if_neg h0]

/-- C5 (amended): during bulk routing, a valid transaction's `Index` is set
to its position `q` in the FILTERED valid slice (equal to the original
client position only when every input validates), and when its shard group
posts successfully the returned `TxsHashes` maps key `q` — that filtered
index — to the hash the observer reported at the transaction's position
within its group. -/
theorem sendMultiple_index_is_filtered_position (env : Env) (txs : List Transaction) :
    (∀ q tx s,
      (txs.filter (fun t => (checkTransactionFields env t).isNone)).get? q = some tx →
      shardOfTx env tx = some s →
      { tx with index := q } ∈ groupsLookup (groupTxsByShard env
        (txs.filter (fun t => (checkTransactionFields env t).isNone))).1 s) ∧
    (∀ q tx s obs resp k h,
      (txs.filter (fun t => (checkTransactionFields env t).isNone)).get? q = some tx →
      shardOfTx env tx = some s →
      (∀ sg ∈ (groupTxsByShard env
          (txs.filter (fun t => (checkTransactionFields env t).isNone))).1,
        ∃ o, env.getObservers sg.1 = Except.ok o) →
      env.getObservers s = Except.ok obs →
      sendMultiGroupLoop env (groupsLookup (groupTxsByShard env
        (txs.filter (fun t => (checkTransactionFields env t).isNone))).1 s) obs =
        some resp →
      (resp.txsHashes.map Prod.fst).Nodup →
      (groupsLookup (groupTxsByShard env
        (txs.filter (fun t => (checkTransactionFields env t).isNone))).1 s).get? k =
        some { tx with index := q } →
      (k, h) ∈ resp.txsHashes →
      assocLookup (SendMultipleTransactions env txs).txsHashes q = some h) := by
  have hgl : ∀ s, groupsLookup (groupTxsByShard env
      (txs.filter (fun t => (checkTransactionFields env t).isNone))).1 s =
      groupedFrom env (txs.filter (fun t => (checkTransactionFields env t).isNone)) 0 s := by
    intro s
    simpa [groupsLookup] using groupTxsByShardAux_fst_lookup env
      (txs.filter (fun t => (checkTransactionFields env t).isNone)) 0 [] s
  have hknd : (((groupTxsByShard env
      (txs.filter (fun t => (checkTransactionFields env t).isNone))).1).map
        Prod.fst).Nodup :=
    groupTxsByShardAux_keys_nodup env _ 0 [] (by simp)
  constructor
  · intro q tx s hq hs
    rw [hgl s]
    exact (mem_groupedFrom env _ 0 s _).mpr ⟨q, tx, hq, hs, by simp⟩
  · intro q tx s obs resp k h hq hs hobs hgobs hloop hrnd hk hkh
    have hne : txs.filter (fun t => (checkTransactionFields env t).isNone) ≠ [] := by
      intro hnil
      rw [hnil] at hq
      simp at hq
    have hcond : ¬ ((txs.filter
        (fun t => (checkTransactionFields env t).isNone)).length == 0) = true := by
      simpa [List.length_eq_zero] using hne
    have hred : SendMultipleTransactions env txs =
        ⟨0 + (((groupTxsByShard env
            (txs.filter (fun t => (checkTransactionFields env t).isNone))).1).map
              (groupContribution env)).sum,
          processGroupsHashes env (groupTxsByShard env
            (txs.filter (fun t => (checkTransactionFields env t).isNone))).1 [],
          none,
          patchValid env txs (groupTxsByShard env
            (txs.filter (fun t => (checkTransactionFields env t).isNone))).2⟩ := by
      unfold SendMultipleTransactions
      rw [if_neg hcond]
      dsimp only
      rw [processGroups_eq_ok env _ 0 [] hobs]
    rw [hred]
    have hglne : groupsLookup (groupTxsByShard env
        (txs.filter (fun t => (checkTransactionFields env t).isNone))).1 s ≠ [] := by
      intro hnil
      rw [hnil] at hk
      simp at hk
    have hmem := groupsLookup_ne_nil_mem s _ hglne
    show assocLookup (processGroupsHashes env _ []) q = some h
    have hwr := processGroupsHashes_write env
      (groupTxsByShard env (txs.filter (fun t => (checkTransactionFields env t).isNone))).1
      [] s _ obs resp k h { tx with index := q } hknd hmem hgobs hloop hrnd
      (by rw [hgl s]; exact groupedFrom_pairwise env _ 0 s) hk hkh ?hothers
    · exact hwr
    case hothers =>
      intro sg hsg hss obs' resp' hobs' hloop' kh hkh' tx' hk'
      intro hie
      have hsgmem : (sg.1, sg.2) ∈ (groupTxsByShard env
          (txs.filter (fun t => (checkTransactionFields env t).isNone))).1 := by
        simpa using hsg
      have he1 := groupsLookup_of_mem _ sg.1 sg.2 hknd hsgmem
      have hm1 : tx' ∈ groupedFrom env
          (txs.filter (fun t => (checkTransactionFields env t).isNone)) 0 sg.1 := by
        rw [← hgl sg.1, he1]
        exact List.get?_mem hk'
      have hm2 : { tx with index := q } ∈ groupedFrom env
          (txs.filter (fun t => (checkTransactionFields env t).isNone)) 0 s := by
        rw [← hgl s]
        exact List.get?_mem hk
      exact hss (groupedFrom_index_unique env _ sg.1 s tx' { tx with index := q }
        hm1 hm2 hie).1

theorem sendMultiple_index_is_filtered_position_witness :
    { txC5good with index := 0 } ∈ groupsLookup (groupTxsByShard envC5
      ([txC5bad, txC5good].filter
        (fun t => (checkTransactionFields envC5 t).isNone))).1 0 ∧
    assocLookup (SendMultipleTransactions envC5 [txC5bad, txC5good]).txsHashes 0 =
      some "Hb" := by
  constructor
  · exact (sendMultiple_index_is_filtered_position envC5 [txC5bad, txC5good]).1
      0 txC5good 0 (by decide) (by decide)
  · exact (sendMultiple_index_is_filtered_position envC5 [txC5bad, txC5good]).2
      0 txC5good 0 [⟨"o1", 0⟩] ⟨1, [(0, "Hb")]⟩ 0 "Hb" (by decide) (by decide)
      (fun sg _ => ⟨[⟨"o1", 0⟩], rfl⟩) (by decide) (by decide) (by decide)
      (by decide) (by decide)

theorem groupTxsByShardAux_snd (env : Env) :
    ∀ (txs : List Transaction) (idx : Nat) (m : List (Nat × List Transaction)),
      (groupTxsByShardAux env txs idx m).2.length = txs.length ∧
      ∀ p tx, txs.get? p = some tx →
        ∃ n, (groupTxsByShardAux env txs idx m).2.get? p = some { tx with index := n }
  | [], idx, m => by
    refine ⟨rfl, ?_⟩
    intro p tx h
    simp at h
  | tx0 :: rest, idx, m => by
    cases hd : env.decode tx0.sender with
    | error e =>
      simp only [groupTxsByShardAux, hd]
      refine ⟨?_, ?_⟩
      · simpa using (groupTxsByShardAux_snd env rest (idx + 1) m).1
      · intro p tx h
        cases p with
        | zero =>
          have htx : tx0 = tx := by simpa using h
          subst htx
          exact ⟨tx0.index, rfl⟩
        | succ p' =>
          have h' : rest.get? p' = some tx := by simpa using h
          obtain ⟨n, hn⟩ := (groupTxsByShardAux_snd env rest (idx + 1) m).2 p' tx h'
          exact ⟨n, by simpa using hn⟩
    | ok b =>
      cases hc : env.computeShardId b with
      | error e =>
        simp only [groupTxsByShardAux, hd, hc]
        refine ⟨?_, ?_⟩
        · simpa using (groupTxsByShardAux_snd env rest (idx + 1) m).1
        · intro p tx h
          cases p with
          | zero =>
            have htx : tx0 = tx := by simpa using h
            subst htx
            exact ⟨tx0.index, rfl⟩
          | succ p' =>
            have h' : rest.get? p' = some tx := by simpa using h
            obtain ⟨n, hn⟩ := (groupTxsByShardAux_snd env rest (idx + 1) m).2 p' tx h'
            exact ⟨n, by simpa using hn⟩
      | ok s0 =>
        simp only [groupTxsByShardAux, hd, hc]
        refine ⟨?_, ?_⟩
        · simpa using (groupTxsByShardAux_snd env rest (idx + 1)
            (shardGroupsInsert m s0 { tx0 with index := idx })).1
        · intro p tx h
          cases p with
          | zero =>
            have htx : tx0 = tx := by simpa using h
            subst htx
            exact ⟨idx, rfl⟩
          | succ p' =>
            have h' : rest.get? p' = some tx := by simpa using h
            obtain ⟨n, hn⟩ := (groupTxsByShardAux_snd env rest (idx + 1)
              (shardGroupsInsert m s0 { tx0 with index := idx })).2 p' tx h'
            exact ⟨n, by simpa using hn⟩

theorem patchValid_spec (env : Env) :
    ∀ (txs repl : List Transaction),
      repl.length = (txs.filter (fun t => (checkTransactionFields env t).isNone)).length →
      (∀ j r, repl.get? j = some r → ∃ tx0 n,
        (txs.filter (fun t => (checkTransactionFields env t).isNone)).get? j = some tx0 ∧
        r = { tx0 with index := n }) →
      (patchValid env txs repl).length = txs.length ∧
      ∀ p tx, txs.get? p = some tx →
        ∃ n, (patchValid env txs repl).get? p = some { tx with index := n }
  | [], repl, _, _ => by
    refine ⟨rfl, ?_⟩
    intro p tx h
    simp at h
  | tx0 :: rest, repl, hlen, hrel => by
    by_cases hv : (checkTransactionFields env tx0).isNone = true
    · have hfil : (tx0 :: rest).filter (fun t => (checkTransactionFields env t).isNone) =
          tx0 :: rest.filter (fun t => (checkTransactionFields env t).isNone) := by
        simp [List.filter_cons, hv]
      cases repl with
      | nil =>
        exfalso
        rw [hfil] at hlen
        simp at hlen
      | cons r repl' =>
        have hstep : patchValid env (tx0 :: rest) (r :: repl') =
            r :: patchValid env rest repl' := by
          simp only [patchValid]
          rw [if_pos hv]
        obtain ⟨tx0', n0, hj0, hr0⟩ := hrel 0 r (by simp)
        rw [hfil] at hj0
        have htx0 : tx0 = tx0' := by simpa using hj0
        have IH := patchValid_spec env rest repl' ?hlen2 ?hrel2
        · refine ⟨?_, ?_⟩
          · rw [hstep]
            simpa using IH.1
          · intro p tx h
            cases p with
            | zero =>
              have htx : tx0 = tx := by simpa using h
              refine ⟨n0, ?_⟩
              rw [hstep]
              simp only [List.get?_cons_zero]
              rw [hr0, ← htx0, htx]
            | succ p' =>
              have h' : rest.get? p' = some tx := by simpa using h
              obtain ⟨n, hn⟩ := IH.2 p' tx h'
              exact ⟨n, by rw [hstep]; simpa using hn⟩
        case hlen2 =>
          rw [hfil] at hlen
          simpa using hlen
        case hrel2 =>
          intro j r' hj
          obtain ⟨tx0'', n'', hja, hrb⟩ := hrel (j + 1) r' (by simpa using hj)
          rw [hfil] at hja
          exact ⟨tx0'', n'', by simpa using hja, hrb⟩
    · have hfil : (tx0 :: rest).filter (fun t => (checkTransactionFields env t).isNone) =
          rest.filter (fun t => (checkTransactionFields env t).isNone) := by
        simp only [List.filter_cons]
        rw [if_neg hv]
      have hstep : patchValid env (tx0 :: rest) repl =
          tx0 :: patchValid env rest repl := by
        simp only [patchValid]
        rw [if_neg hv]
      have IH := patchValid_spec env rest repl ?hlen2 ?hrel2
      · refine ⟨?_, ?_⟩
        · rw [hstep]
          simpa using IH.1
        · intro p tx h
          cases p with
          | zero =>
            have htx : tx0 = tx := by simpa using h
            subst htx
            exact ⟨tx0.index, by rw [hstep]; rfl⟩
          | succ p' =>
            have h' : rest.get? p' = some tx := by simpa using h
            obtain ⟨n, hn⟩ := IH.2 p' tx h'
            exact ⟨n, by rw [hstep]; simpa using hn⟩
      case hlen2 =>
        rw [hfil] at hlen
        exact hlen
      case hrel2 =>
        intro j r' hj
        obtain ⟨tx0'', n'', hja, hrb⟩ := hrel j r' hj
        rw [hfil] at hja
        exact ⟨tx0'', n'', hja, hrb⟩

/-- C6 (amended): `groupTxsByShard` writes `Index` in place through the
caller's pointers, so `SendMultipleTransactions` may mutate the
caller-owned transactions; however the mutation touches ONLY the `Index`
field: after the call, position `p` of the caller's slice holds the input
transaction at `p` with (at most) a rewritten `Index`. -/
theorem sendMultipleTransactions_mutates_only_index (env : Env) (txs : List Transaction) :
    (SendMultipleTransactions env txs).finalTxs.length = txs.length ∧
    ∀ p tx, txs.get? p = some tx →
      ∃ n, (SendMultipleTransactions env txs).finalTxs.get? p =
        some { tx with index := n } := by
  by_cases hc : ((txs.filter (fun t => (checkTransactionFields env t).isNone)).length
      == 0) = true
  · have hred : SendMultipleTransactions env txs =
        ⟨0, [], some ProxyError.noValidTransactionToSend, txs⟩ := by
      unfold SendMultipleTransactions
      rw [if_pos hc]
    rw [hred]
    exact ⟨rfl, fun p tx h => ⟨tx.index, h⟩⟩
  · have hred : (SendMultipleTransactions env txs).finalTxs =
        patchValid env txs (groupTxsByShard env
          (txs.filter (fun t => (checkTransactionFields env t).isNone))).2 := by
      unfold SendMultipleTransactions
      rw [if_neg hc]
      dsimp only
      cases hp : processGroups env (groupTxsByShard env
          (txs.filter (fun t => (checkTransactionFields env t).isNone))).1 0 [] with
      | error e => rfl
      | ok pr =>
        obtain ⟨t, hh⟩ := pr
        rfl
    rw [hred]
    have haux := groupTxsByShardAux_snd env
      (txs.filter (fun t => (checkTransactionFields env t).isNone)) 0 []
    refine patchValid_spec env txs _ haux.1 ?_
    intro j r hj
    obtain ⟨hjl, _⟩ := List.get?_eq_some.mp hj
    have hjv : j < (txs.filter (fun t => (checkTransactionFields env t).isNone)).length := by
      rw [← haux.1]
      exact hjl
    obtain ⟨n, hn⟩ := haux.2 j _ (List.get?_eq_get hjv)
    have hn2 : (groupTxsByShard env
        (txs.filter (fun t => (checkTransactionFields env t).isNone))).2.get? j =
        (groupTxsByShardAux env
          (txs.filter (fun t => (checkTransactionFields env t).isNone)) 0 []).2.get? j :=
      rfl
    rw [hn, hj] at hn2
    injection hn2 with hn'
    exact ⟨_, n, List.get?_eq_get hjv, hn'⟩

theorem sendMultipleTransactions_mutates_only_index_witness :
    (SendMultipleTransactions envC6 [txC6]).finalTxs.length = 1 ∧
    (∃ n, (SendMultipleTransactions envC6 [txC6]).finalTxs.get? 0 =
      some { txC6 with index := n }) := by
  have h := sendMultipleTransactions_mutates_only_index envC6 [txC6]
  exact ⟨h.1, h.2 0 txC6 (by decide)⟩

end ElrondProxy
